import Mathlib

/-!
# Verification of the W-2 field normalization and quality-scoring pipeline

Shallow embedding of `task3_w2_parser/w2_parser.py` (class `W2Parser`) and the
parts of `run_parser.py` and `gemini_client.py` the claims touch.

Modelling conventions:
* Python values flowing through the pipeline (JSON-shaped data) are embedded as
  the inductive `Value`; Python `dict`s become association lists in insertion
  order (Python dict keys are unique, and insertion order is observable).
* Python numbers (int and float alike) are embedded as exact rationals `Rat`;
  all numeric literals exercised by the theorems below are exactly
  representable in both.
* Fallible Python code is embedded in `Except String α`; the `String` carries
  the text of `str(e)` for the raised exception.  Messages of exceptions raised
  organically by the runtime (AttributeError, TypeError, KeyError) are
  abstracted to the exception-class name; messages the source constructs
  explicitly are reproduced verbatim.
* Python `str.lower`, `str.strip`, `str.isdigit` and the regexes `\D`,
  `[^\d.-]` are modelled on their ASCII behaviour (all table keys, field names
  and claim inputs are ASCII).
-/

namespace W2

/-- Embedded Python/JSON value: the data flowing through the W-2 pipeline. -/
inductive Value where
  | vnull : Value
  | vbool : Bool → Value
  | vnum : Rat → Value
  | vstr : String → Value
  | vlist : List Value → Value
  | vobj : List (String × Value) → Value
deriving Repr

/-- Python truthiness (`bool(v)`): `None`, `False`, `0`, `""`, `[]`, `{}` are falsy. -/
def Value.truthy : Value → Bool
  | .vnull => false
  | .vbool b => b
  | .vnum q => q != 0
  | .vstr s => !s.isEmpty
  | .vlist xs => !xs.isEmpty
  | .vobj kvs => !kvs.isEmpty

/-- Dict lookup `d[k]` / `k in d`: first entry with the given key. -/
def getKey (kvs : List (String × Value)) (k : String) : Option Value :=
  match kvs with
  | [] => none
  | (k', v) :: rest => if k' = k then some v else getKey rest k

/-- `k in d` for a dict. -/
def hasKey (kvs : List (String × Value)) (k : String) : Bool :=
  (getKey kvs k).isSome

/-- Replace the entry at key `k` (keeping its position). -/
def updateKey : List (String × Value) → String → Value → List (String × Value)
  | [], _, _ => []
  | (a, b) :: rest, k, v =>
    if a = k then (k, v) :: updateKey rest k v else (a, b) :: updateKey rest k v

/-- Dict assignment `d[k] = v`: overwrite in place if present, else append
(Python dicts keep the original insertion position of an existing key). -/
def setKey (kvs : List (String × Value)) (k : String) (v : Value) :
    List (String × Value) :=
  if hasKey kvs k then updateKey kvs k v else kvs ++ [(k, v)]

/-! ## Python string primitives (ASCII behaviour) -/

/-- Python `str.lower()` (ASCII letters; all inputs of interest are ASCII). -/
def pyLower (s : String) : String :=
  String.mk (s.toList.map Char.toLower)

/-- Python whitespace stripped by `str.strip()` (the ASCII subset). -/
def pyIsSpace (c : Char) : Bool :=
  c = ' ' || c = '\t' || c = '\n' || c = '\r' || c = Char.ofNat 11 || c = Char.ofNat 12

/-- Python `str.strip()`: drop leading and trailing whitespace. -/
def pyStrip (s : String) : String :=
  String.mk ((((s.toList.dropWhile pyIsSpace).reverse).dropWhile pyIsSpace).reverse)

/-- Python `str(v)`.  Exact for strings (the only shape the theorems below
feed it); numbers are rendered as their rational normal form, which has the
same digit content as Python's rendering for the integral values that occur;
container rendering is not modelled (never exercised). -/
def pyStr : Value → String
  | .vstr s => s
  | .vnull => "None"
  | .vbool true => "True"
  | .vbool false => "False"
  | .vnum q => toString q
  | .vlist _ => "[...]"
  | .vobj _ => "{...}"

/-- Python `k in v` for a string key `k`: key test on dicts, substring test on
strings, membership test on lists (a string equals only an equal string);
`TypeError` on the remaining shapes. -/
def pyInStr (k : String) (v : Value) : Except String Bool :=
  match v with
  | .vobj kvs => .ok (hasKey kvs k)
  | .vstr s => .ok (decide ((s.splitOn k).length > 1))
  | .vlist xs => .ok (xs.any fun x => match x with | .vstr t => t = k | _ => false)
  | _ => .error "TypeError"

/-- Python subscript `v[k]` for a string key. -/
def subscript (v : Value) (k : String) : Except String Value :=
  match v with
  | .vobj kvs =>
    match getKey kvs k with
    | some x => .ok x
    | none => .error "KeyError"
  | _ => .error "TypeError"

/-- Python `v.get(k, dflt)`: `AttributeError` when `v` is not a dict. -/
def dictGet (v : Value) (k : String) (dflt : Value) : Except String Value :=
  match v with
  | .vobj kvs => .ok ((getKey kvs k).getD dflt)
  | _ => .error "AttributeError"

/-- Python `a > b` on the scalar shapes the pipeline compares (numbers,
booleans-as-numbers, strings lexicographically); `TypeError` on mixed or
container shapes (sequence comparison is never exercised here). -/
def pyGt (a b : Value) : Except String Bool :=
  match a, b with
  | .vnum x, .vnum y => .ok (decide (y < x))
  | .vnum x, .vbool y => .ok (decide ((if y then (1 : Rat) else 0) < x))
  | .vbool x, .vnum y => .ok (decide (y < (if x then (1 : Rat) else 0)))
  | .vbool x, .vbool y => .ok (decide ((if y then (1 : Nat) else 0) < (if x then 1 else 0)))
  | .vstr x, .vstr y => .ok (decide (y < x))
  | _, _ => .error "TypeError"

/-! ## Sensitive-field masking (`W2Parser._mask_sensitive_data`) -/

/-- The mask applied to an SSN/EIN string: keep only the digits; with at least
4 of them, `***-**-` followed by the last 4, otherwise `***-**-****`. -/
def maskString (s : String) : String :=
  let digits := s.toList.filter Char.isDigit
  if digits.length ≥ 4 then
    "***-**-" ++ String.mk (digits.drop (digits.length - 4))
  else
    "***-**-****"

/-- One half of `_mask_sensitive_data`: `if sect in data and data[sect].get(field):`
then rewrite `data[sect][field]` with the masked string. -/
def maskField (kvs : List (String × Value)) (sect field : String) :
    Except String (List (String × Value)) :=
  match getKey kvs sect with
  | none => .ok kvs
  | some (.vobj skvs) =>
    let v := (getKey skvs field).getD .vnull
    if v.truthy then
      .ok (setKey kvs sect (.vobj (setKey skvs field (.vstr (maskString (pyStr v))))))
    else
      .ok kvs
  | some _ => .error "AttributeError"

/-- `W2Parser._mask_sensitive_data`: mask `employee.ssn`, then `employer.ein`. -/
def maskSensitiveData (kvs : List (String × Value)) :
    Except String (List (String × Value)) :=
  match maskField kvs "employee" "ssn" with
  | .error e => .error e
  | .ok kvs1 => maskField kvs1 "employer" "ein"

/-! ## State-code normalization (`W2Parser._normalize_state_codes`) -/

/-- The hardcoded `state_mapping` table, in source order: for each of the 50
states the full lowercase name followed by the lowercase 2-letter code, both
mapped to the canonical uppercase code. -/
def stateMapping : List (String × String) := [
  ("alabama", "AL"), ("al", "AL"),
  ("alaska", "AK"), ("ak", "AK"),
  ("arizona", "AZ"), ("az", "AZ"),
  ("arkansas", "AR"), ("ar", "AR"),
  ("california", "CA"), ("ca", "CA"),
  ("colorado", "CO"), ("co", "CO"),
  ("connecticut", "CT"), ("ct", "CT"),
  ("delaware", "DE"), ("de", "DE"),
  ("florida", "FL"), ("fl", "FL"),
  ("georgia", "GA"), ("ga", "GA"),
  ("hawaii", "HI"), ("hi", "HI"),
  ("idaho", "ID"), ("id", "ID"),
  ("illinois", "IL"), ("il", "IL"),
  ("indiana", "IN"), ("in", "IN"),
  ("iowa", "IA"), ("ia", "IA"),
  ("kansas", "KS"), ("ks", "KS"),
  ("kentucky", "KY"), ("ky", "KY"),
  ("louisiana", "LA"), ("la", "LA"),
  ("maine", "ME"), ("me", "ME"),
  ("maryland", "MD"), ("md", "MD"),
  ("massachusetts", "MA"), ("ma", "MA"),
  ("michigan", "MI"), ("mi", "MI"),
  ("minnesota", "MN"), ("mn", "MN"),
  ("mississippi", "MS"), ("ms", "MS"),
  ("missouri", "MO"), ("mo", "MO"),
  ("montana", "MT"), ("mt", "MT"),
  ("nebraska", "NE"), ("ne", "NE"),
  ("nevada", "NV"), ("nv", "NV"),
  ("new hampshire", "NH"), ("nh", "NH"),
  ("new jersey", "NJ"), ("nj", "NJ"),
  ("new mexico", "NM"), ("nm", "NM"),
  ("new york", "NY"), ("ny", "NY"),
  ("north carolina", "NC"), ("nc", "NC"),
  ("north dakota", "ND"), ("nd", "ND"),
  ("ohio", "OH"), ("oh", "OH"),
  ("oklahoma", "OK"), ("ok", "OK"),
  ("oregon", "OR"), ("or", "OR"),
  ("pennsylvania", "PA"), ("pa", "PA"),
  ("rhode island", "RI"), ("ri", "RI"),
  ("south carolina", "SC"), ("sc", "SC"),
  ("south dakota", "SD"), ("sd", "SD"),
  ("tennessee", "TN"), ("tn", "TN"),
  ("texas", "TX"), ("tx", "TX"),
  ("utah", "UT"), ("ut", "UT"),
  ("vermont", "VT"), ("vt", "VT"),
  ("virginia", "VA"), ("va", "VA"),
  ("washington", "WA"), ("wa", "WA"),
  ("west virginia", "WV"), ("wv", "WV"),
  ("wisconsin", "WI"), ("wi", "WI"),
  ("wyoming", "WY"), ("wy", "WY")]

/-- Lookup in the state table (`state_lower in state_mapping` / subscript). -/
def lookupState (k : String) : Option String :=
  (stateMapping.find? (fun p => p.1 = k)).map Prod.snd

/-- The per-string normalization performed at each state slot:
`state.lower().strip()`, rewritten to the table entry when found, otherwise
left as is. -/
def normStateStr (s : String) : String :=
  match lookupState (pyStrip (pyLower s)) with
  | some code => code
  | none => s

/-- The per-value effect of one state slot: only a truthy (non-empty) string
is rewritten; everything else is left unchanged. -/
def normStateValue (v : Value) : Value :=
  match v with
  | .vstr s => if s.isEmpty then v else .vstr (normStateStr s)
  | _ => v

/-- One address-bearing half of `_normalize_state_codes`:
`if sect in data and 'address' in data[sect]:` then rewrite
`data[sect]['address']['state']` when it is a truthy string found in the
table. -/
def normalizeAddrState (kvs : List (String × Value)) (sect : String) :
    Except String (List (String × Value)) :=
  match getKey kvs sect with
  | none => .ok kvs
  | some (.vobj skvs) =>
    match getKey skvs "address" with
    | none => .ok kvs
    | some (.vobj akvs) =>
      match (getKey akvs "state").getD (.vstr "") with
      | .vstr s =>
        if s.isEmpty then .ok kvs
        else
          match lookupState (pyStrip (pyLower s)) with
          | some code =>
            .ok (setKey kvs sect (.vobj (setKey skvs "address"
              (.vobj (setKey akvs "state" (.vstr code))))))
          | none => .ok kvs
      | _ => .ok kvs
    | some _ => .error "AttributeError"
  | some (.vstr s) =>
    -- `'address' in <str>` is a substring test; a hit leads to `<str>['address']`
    if (s.splitOn "address").length > 1 then .error "TypeError" else .ok kvs
  | some (.vlist xs) =>
    if xs.any (fun x => match x with | .vstr t => t = "address" | _ => false) then
      .error "TypeError"
    else .ok kvs
  | some _ => .error "TypeError"

/-- One iteration of the `state_local` loop: `state_data.get('state', '')`,
rewritten when a truthy string found in the table. -/
def normStateItem (v : Value) : Except String Value :=
  match v with
  | .vobj kvs =>
    match (getKey kvs "state").getD (.vstr "") with
    | .vstr s =>
      if s.isEmpty then .ok v
      else
        match lookupState (pyStrip (pyLower s)) with
        | some code => .ok (.vobj (setKey kvs "state" (.vstr code)))
        | none => .ok v
    | _ => .ok v
  | _ => .error "AttributeError"

/-- A `for state_data in ...` loop body applied to every element in order,
stopping at the first raised exception. -/
def mapStateItems (f : Value → Except String Value) :
    List Value → Except String (List Value)
  | [] => .ok []
  | x :: xs =>
    match f x with
    | .error e => .error e
    | .ok y =>
      match mapStateItems f xs with
      | .error e => .error e
      | .ok ys => .ok (y :: ys)

/-- The `state_local` loop of `_normalize_state_codes`.  Iterating a string
yields its characters and iterating a dict yields its keys; in either case a
non-empty container hits `.get` on a string and raises. -/
def normalizeStateLocal (kvs : List (String × Value)) :
    Except String (List (String × Value)) :=
  match getKey kvs "state_local" with
  | none => .ok kvs
  | some (.vlist xs) =>
    match mapStateItems normStateItem xs with
    | .ok xs2 => .ok (setKey kvs "state_local" (.vlist xs2))
    | .error e => .error e
  | some (.vstr s) => if s.isEmpty then .ok kvs else .error "AttributeError"
  | some (.vobj o) => if o.isEmpty then .ok kvs else .error "AttributeError"
  | some _ => .error "TypeError"

/-- `W2Parser._normalize_state_codes`: employee address, employer address,
then every `state_local` record. -/
def normalizeStateCodes (kvs : List (String × Value)) :
    Except String (List (String × Value)) :=
  match normalizeAddrState kvs "employee" with
  | .error e => .error e
  | .ok kvs1 =>
    match normalizeAddrState kvs1 "employer" with
    | .error e => .error e
    | .ok kvs2 => normalizeStateLocal kvs2

/-! ## Numeric coercion (`W2Parser._convert_numeric_fields`) -/

/-- The ten federal monetary field names, in source order. -/
def monetaryFields : List String := [
  "wages_tips", "federal_income_tax", "social_security_wages",
  "social_security_tax", "medicare_wages", "medicare_tax",
  "social_security_tips", "allocated_tips", "dependent_care_benefits",
  "nonqualified_plans"]

/-- The two state-local monetary field names. -/
def stateMonetaryFields : List String := ["state_wages", "state_income_tax"]

/-- Numeric value of a digit string (most significant first). -/
def digitsVal (ds : List Char) : Nat :=
  ds.foldl (fun a c => 10 * a + (c.toNat - 48)) 0

/-- Python `float(cleaned)` on a string drawn from the alphabet `0-9 . -`
(the only strings the source feeds it): an optional leading minus, then
either digits with an optional fraction or a bare fraction; anything else
raises `ValueError` (`none`).  The value is exact (floats as rationals). -/
def parseCleanedFloat (s : String) : Option Rat :=
  let cs := s.toList
  let neg : Bool := cs.head? = some '-'
  let rest := if neg then cs.drop 1 else cs
  let intPart := rest.takeWhile Char.isDigit
  let rest2 := rest.dropWhile Char.isDigit
  let mk (ip fp : List Char) : Rat :=
    let mag : Rat := (digitsVal ip : Rat) + (digitsVal fp : Rat) / (10 : Rat) ^ fp.length
    if neg then -mag else mag
  match rest2 with
  | [] => if intPart.isEmpty then none else some (mk intPart [])
  | '.' :: frac =>
    if frac.all Char.isDigit && !(intPart.isEmpty && frac.isEmpty) then
      some (mk intPart frac)
    else none
  | _ => none

/-- The string branch of the conversion: `re.sub(r'[^\d.-]', '', value)`, then
`float` when the cleaned string is truthy and not `"-"`, else `None`; a
`ValueError` from `float` is caught and also stores `None`. -/
def coerceNumStr (s : String) : Value :=
  let cleaned := String.mk (s.toList.filter fun c => c.isDigit || c = '.' || c = '-')
  if !cleaned.isEmpty && cleaned ≠ "-" then
    match parseCleanedFloat cleaned with
    | some q => .vnum q
    | none => .vnull
  else
    .vnull

/-- The per-field effect on a present value: only truthy strings are
converted; falsy values and non-strings are left unchanged. -/
def coerceValue (v : Value) : Value :=
  if v.truthy then
    match v with
    | .vstr s => coerceNumStr s
    | _ => v
  else v

/-- The body of one field iteration on a dict section:
`if field in section and section[field]:` then convert a string value. -/
def convertFieldObj (fkvs : List (String × Value)) (field : String) :
    List (String × Value) :=
  match getKey fkvs field with
  | some v =>
    if v.truthy then
      match v with
      | .vstr s => setKey fkvs field (coerceNumStr s)
      | _ => fkvs
    else fkvs
  | none => fkvs

/-- One field iteration on an arbitrary section value.  The membership test
and the truthiness subscript stand outside the `try`, so a non-dict section
that passes the membership test raises. -/
def convertField (fv : Value) (field : String) : Except String Value :=
  match fv with
  | .vobj fkvs => .ok (.vobj (convertFieldObj fkvs field))
  | .vstr s => if (s.splitOn field).length > 1 then .error "TypeError" else .ok fv
  | .vlist xs =>
    if xs.any (fun x => match x with | .vstr t => t = field | _ => false) then
      .error "TypeError"
    else .ok fv
  | _ => .error "TypeError"

/-- The `for field in ...` loop of `_convert_numeric_fields` on one section
value, in field order, stopping at the first raised exception. -/
def foldFields (fv : Value) : List String → Except String Value
  | [] => .ok fv
  | f :: rest =>
    match convertField fv f with
    | .error e => .error e
    | .ok fv2 => foldFields fv2 rest

/-- One iteration of the `state_local` loop of `_convert_numeric_fields`. -/
def convertStateItem (sd : Value) : Except String Value :=
  foldFields sd stateMonetaryFields

/-- The `state_local` half of `_convert_numeric_fields`.  Iterating a
`state_local` string yields single characters (never containing a field name,
so a no-op); iterating a dict yields its keys, each checked like a record. -/
def convertStateSection (kvs2 : List (String × Value)) :
    Except String (List (String × Value)) :=
  match getKey kvs2 "state_local" with
  | none => .ok kvs2
  | some (.vlist xs) =>
    match mapStateItems convertStateItem xs with
    | .ok xs2 => .ok (setKey kvs2 "state_local" (.vlist xs2))
    | .error e => .error e
  | some (.vstr _) => .ok kvs2
  | some (.vobj o) =>
    match mapStateItems convertStateItem (o.map (fun p => Value.vstr p.1)) with
    | .ok _ => .ok kvs2
    | .error e => .error e
  | some _ => .error "TypeError"

/-- `W2Parser._convert_numeric_fields`: the ten federal fields, then the two
state fields of every `state_local` record. -/
def convertNumericFields (kvs : List (String × Value)) :
    Except String (List (String × Value)) :=
  match getKey kvs "federal" with
  | none => convertStateSection kvs
  | some fv =>
    match foldFields fv monetaryFields with
    | .ok fv2 => convertStateSection (setKey kvs "federal" fv2)
    | .error e => .error e

/-! ## Top-level normalization (`W2Parser._normalize_data`) -/

/-- `W2Parser._normalize_data`: a falsy blob returns `{}`; otherwise the five
sections are defaulted and masking, state normalization and numeric coercion
run in order.  A truthy non-dict blob hits `.get` and raises. -/
def normalizeData (data : Value) : Except String (List (String × Value)) :=
  if !data.truthy then .ok []
  else
    match data with
    | .vobj kvs =>
      let normalized : List (String × Value) := [
        ("employee", (getKey kvs "employee").getD (.vobj [])),
        ("employer", (getKey kvs "employer").getD (.vobj [])),
        ("federal", (getKey kvs "federal").getD (.vobj [])),
        ("state_local", (getKey kvs "state_local").getD (.vlist [])),
        ("other_boxes", (getKey kvs "other_boxes").getD (.vobj []))]
      match maskSensitiveData normalized with
      | .error e => .error e
      | .ok n1 =>
        match normalizeStateCodes n1 with
        | .error e => .error e
        | .ok n2 => convertNumericFields n2
    | _ => .error "AttributeError"

/-! ## Address composition (`W2Parser._get_employee_address`) -/

/-- `W2Parser._get_employee_address`: join the truthy components among
street, city, state, zip with `", "`; an empty string when the employee or
address section is missing.  A truthy non-string component makes the final
`join` raise; the error is surfaced at the component here. -/
def getEmployeeAddress (kvs : List (String × Value)) : Except String String :=
  match getKey kvs "employee" with
  | none => .ok ""
  | some ev =>
    match pyInStr "address" ev with
    | .error e => .error e
    | .ok false => .ok ""
    | .ok true =>
      match subscript ev "address" with
      | .error e => .error e
      | .ok av =>
        let comp (acc : Except String (List String)) (k : String) :
            Except String (List String) :=
          match acc with
          | .error e => .error e
          | .ok cs =>
            match dictGet av k .vnull with
            | .error e => .error e
            | .ok v =>
              if v.truthy then
                match v with
                | .vstr s => .ok (cs ++ [s])
                | _ => .error "TypeError"
              else .ok cs
        match ["street", "city", "state", "zip"].foldl comp (.ok []) with
        | .error e => .error e
        | .ok comps => .ok (String.intercalate ", " comps)

/-! ## Quality report (`W2Parser._generate_quality_report`) -/

/-- `v not in [None, ""]`: false exactly for `None` and the empty string. -/
def notNullOrEmpty (v : Value) : Bool :=
  match v with
  | .vnull => false
  | .vstr s => !s.isEmpty
  | _ => true

/-- The dotted-path walk of the missing-critical-fields loop: each segment is
looked up with `part in current` and `current[part] not in [None, ""]`. -/
def checkPath (v : Value) : List String → Except String Bool
  | [] => .ok true
  | p :: rest =>
    match pyInStr p v with
    | .error e => .error e
    | .ok false => .ok false
    | .ok true =>
      match subscript v p with
      | .error e => .error e
      | .ok w => if notNullOrEmpty w then checkPath w rest else .ok false

/-- The four critical field paths, in source order. -/
def criticalFields : List String :=
  ["employee.name", "employee.ssn", "federal.wages_tips", "federal.federal_income_tax"]

/-- Splitting a character list at a separator (structural helper). -/
def splitCharsOn (sep : Char) : List Char → List (List Char)
  | [] => [[]]
  | c :: rest =>
    match splitCharsOn sep rest with
    | [] => [[]]
    | g :: gs => if c = sep then [] :: g :: gs else (c :: g) :: gs

/-- Python `field_path.split('.')`. -/
def splitOnDot (s : String) : List String :=
  (splitCharsOn '.' s.toList).map String.mk

/-- The missing-fields loop: collect, in order, the paths whose walk fails. -/
def computeMissing (v : Value) : List String → Except String (List String)
  | [] => .ok []
  | fp :: rest =>
    match checkPath v (splitOnDot fp) with
    | .error e => .error e
    | .ok found =>
      match computeMissing v rest with
      | .error e => .error e
      | .ok others => .ok (if found then others else fp :: others)

/-- The cross-field consistency test:
`federal.get('wages_tips') and federal.get('social_security_wages') and
federal['social_security_wages'] > federal['wages_tips']`, with Python's
short-circuit evaluation. -/
def inconsistencyCheck (federal : Value) : Except String Bool :=
  match dictGet federal "wages_tips" .vnull with
  | .error e => .error e
  | .ok wt =>
    if wt.truthy then
      match dictGet federal "social_security_wages" .vnull with
      | .error e => .error e
      | .ok ssw =>
        if ssw.truthy then pyGt ssw wt else .ok false
    else .ok false

/-- The warning naming all missing critical paths. -/
def missingMsg (missing : List String) : String :=
  "Missing critical fields: " ++ String.intercalate ", " missing

/-- The low-text-extraction warning. -/
def lowTextMsg : String := "Low text extraction - possible OCR issues"

/-- The cross-field inconsistency warning. -/
def inconsistencyMsg : String :=
  "Social Security wages exceed Box 1 wages - possible data inconsistency"

/-- The pure tail of `_generate_quality_report`: given the computed missing
paths and the outcome of the consistency test, assemble the report exactly as
the source does (warning order: missing fields, low text, inconsistency). -/
def assembleReport (missing : List String) (inconsistent : Bool)
    (extracted_text method : String) : List (String × Value) :=
  let warnings : List String := []
  let confidence := "high"
  let warnings := if missing.isEmpty then warnings else warnings ++ [missingMsg missing]
  let confidence := if missing.isEmpty then confidence else "medium"
  let tl := (pyStrip extracted_text).length
  let warnings := if tl < 50 then warnings ++ [lowTextMsg] else warnings
  let text_quality := if tl < 50 then "poor" else if tl < 200 then "fair" else "good"
  let confidence := if tl < 50 then "low"
    else if tl < 200 then (if confidence ≠ "low" then "medium" else confidence)
    else confidence
  let warnings := if inconsistent then warnings ++ [inconsistencyMsg] else warnings
  [("confidence", .vstr confidence),
   ("warnings", .vlist (warnings.map .vstr)),
   ("text_quality", .vstr text_quality),
   ("extraction_method", .vstr method),
   ("text_length", .vnum tl),
   ("critical_fields_missing", .vnum missing.length)]

/-- `W2Parser._generate_quality_report`. -/
def generateQualityReport (kvs : List (String × Value))
    (extracted_text method : String) : Except String (List (String × Value)) :=
  match computeMissing (.vobj kvs) criticalFields with
  | .error e => .error e
  | .ok missing =>
    match inconsistencyCheck ((getKey kvs "federal").getD (.vobj [])) with
    | .error e => .error e
    | .ok inconsistent => .ok (assembleReport missing inconsistent extracted_text method)

/-! ## File-type dispatch (`W2Parser._extract_text_from_file`) -/

/-- `pathlib.Path(p).suffix` (POSIX): the final `.`-suffix of the last path
component, empty when the dot is leading, trailing or absent. -/
def pathSuffix (p : String) : String :=
  let name := ((((splitCharsOn '/' p.toList).map String.mk).filter
    (fun c => !c.isEmpty)).getLastD "")
  let cs := name.toList
  match cs.reverse.findIdx? (fun c => c = '.') with
  | none => ""
  | some j =>
    let i := cs.length - 1 - j
    if 0 < i && i < cs.length - 1 then String.mk (cs.drop i) else ""

/-- The file system seen by the parser: existence tests and text reads
(`open(path).read()` may raise). -/
structure FileSystem where
  pathExists : String → Bool
  readText : String → Except String String

/-- `W2Parser._extract_text_from_file`, with the PDF and image extractors
(external collaborators: PyPDF2, PIL/pytesseract) passed as parameters.
A missing file raises `FileNotFoundError`; an unrecognized extension raises
`ValueError`; `.txt` files are read directly. -/
def extractTextFromFile (fs : FileSystem)
    (pdfExtract imageExtract : String → Except String (String × String))
    (file_path : String) : Except String (String × String) :=
  if !fs.pathExists file_path then
    .error ("File not found: " ++ file_path)
  else
    let file_ext := pyLower (pathSuffix file_path)
    if file_ext ∈ [".pdf"] then pdfExtract file_path
    else if file_ext ∈ [".jpg", ".jpeg", ".png", ".tiff", ".bmp"] then
      imageExtract file_path
    else if file_ext ∈ [".txt"] then
      match fs.readText file_path with
      | .ok text => .ok (text, "direct_text")
      | .error e => .error e
    else
      .error ("Unsupported file format: " ++ file_ext)

/-! ## Orchestration (`W2Parser.process_w2`, non-test mode) -/

/-- The effectful collaborators of the pipeline: text extraction (step 1),
Gemini structured extraction (step 2) and Gemini insight generation
(step 4). -/
structure PipelineEnv where
  extractText : String → Except String (String × String)
  extractW2Data : String → Except String Value
  generateInsights : Value → String → Except String Value

/-- The body of the `try` block of `process_w2`: the five steps in source
order, ending with the construction of the result dict (where
`insights_data.get("insights", [])` is evaluated last). -/
def pipelineRun (env : PipelineEnv) (file_path : String) : Except String Value :=
  match env.extractText file_path with
  | .error e => .error e
  | .ok (text_content, extraction_method) =>
    match env.extractW2Data text_content with
    | .error e => .error e
    | .ok extracted_data =>
      match normalizeData extracted_data with
      | .error e => .error e
      | .ok normalized_data =>
        match getEmployeeAddress normalized_data with
        | .error e => .error e
        | .ok address =>
          match env.generateInsights (.vobj normalized_data) address with
          | .error e => .error e
          | .ok insights_data =>
            match generateQualityReport normalized_data text_content extraction_method with
            | .error e => .error e
            | .ok quality_report =>
              match dictGet insights_data "insights" (.vlist []) with
              | .error e => .error e
              | .ok ins =>
                .ok (.vobj [
                  ("fields", .vobj normalized_data),
                  ("insights", ins),
                  ("quality", .vobj quality_report)])

/-- The degraded result built by the `except Exception` handler of
`process_w2`. -/
def degradedResult (e : String) : Value :=
  .vobj [
    ("fields", .vobj []),
    ("insights", .vlist [.vstr ("• Processing error: " ++ e)]),
    ("quality", .vobj [
      ("confidence", .vstr "low"),
      ("warnings", .vlist [.vstr ("Processing failed: " ++ e)]),
      ("ocr_quality", .vstr "unknown"),
      ("extraction_method", .vstr "failed")])]

/-- `W2Parser.process_w2` in non-test mode: the pipeline under a catch-all
that converts any exception into the degraded result. -/
def processW2 (env : PipelineEnv) (file_path : String) : Value :=
  match pipelineRun env file_path with
  | .ok r => r
  | .error e => degradedResult e

/-- A parser whose step 1 is the real `_extract_text_from_file` over a given
file system, with the remaining collaborators supplied. -/
def mkEnv (fs : FileSystem)
    (pdfExtract imageExtract : String → Except String (String × String))
    (gemExtract : String → Except String Value)
    (gemInsights : Value → String → Except String Value) : PipelineEnv :=
  { extractText := extractTextFromFile fs pdfExtract imageExtract,
    extractW2Data := gemExtract,
    generateInsights := gemInsights }

/-! ## Association-list lemmas -/

theorem getKey_updateKey_self (kvs : List (String × Value)) (k : String) (v : Value) :
    getKey (updateKey kvs k v) k = if hasKey kvs k then some v else none := by
  induction kvs with
  | nil => simp [updateKey, getKey, hasKey]
  | cons p rest ih =>
    obtain ⟨a, b⟩ := p
    by_cases h : a = k
    · rw [updateKey, if_pos h]
      simp [getKey, hasKey, h]
    · rw [updateKey, if_neg h]
      rw [getKey, if_neg h, ih]
      have : hasKey ((a, b) :: rest) k = hasKey rest k := by
        simp [hasKey, getKey, h]
      rw [this]

theorem getKey_updateKey_ne (kvs : List (String × Value)) (k k' : String) (v : Value)
    (h : k' ≠ k) : getKey (updateKey kvs k v) k' = getKey kvs k' := by
  induction kvs with
  | nil => simp [updateKey]
  | cons p rest ih =>
    obtain ⟨a, b⟩ := p
    by_cases ha : a = k
    · rw [updateKey, if_pos ha]
      rw [getKey, if_neg (fun hk => h hk.symm), getKey, if_neg (ha ▸ fun hk => h hk.symm)]
      exact ih
    · rw [updateKey, if_neg ha]
      rw [getKey, getKey]
      by_cases ha' : a = k'
      · rw [if_pos ha', if_pos ha']
      · rw [if_neg ha', if_neg ha']
        exact ih

theorem getKey_append_of_none {kvs : List (String × Value)} {k : String}
    (h : getKey kvs k = none) (ys : List (String × Value)) :
    getKey (kvs ++ ys) k = getKey ys k := by
  induction kvs with
  | nil => simp
  | cons p rest ih =>
    obtain ⟨a, b⟩ := p
    by_cases ha : a = k
    · rw [getKey, if_pos ha] at h
      exact absurd h (by simp)
    · rw [getKey, if_neg ha] at h
      rw [List.cons_append, getKey, if_neg ha]
      exact ih h

theorem getKey_none_of_not_hasKey {kvs : List (String × Value)} {k : String}
    (h : ¬ hasKey kvs k) : getKey kvs k = none := by
  unfold hasKey at h
  cases hg : getKey kvs k with
  | none => rfl
  | some x => rw [hg] at h; simp at h

theorem getKey_setKey_self (kvs : List (String × Value)) (k : String) (v : Value) :
    getKey (setKey kvs k v) k = some v := by
  unfold setKey
  by_cases h : hasKey kvs k
  · rw [if_pos h, getKey_updateKey_self, if_pos h]
  · rw [if_neg h, getKey_append_of_none (getKey_none_of_not_hasKey h)]
    simp [getKey]

theorem getKey_append_single_ne (kvs : List (String × Value)) (k k' : String)
    (v : Value) (h : k' ≠ k) : getKey (kvs ++ [(k, v)]) k' = getKey kvs k' := by
  induction kvs with
  | nil =>
    have hne : ¬ k = k' := fun hk => h hk.symm
    simp [getKey, hne]
  | cons p rest ih =>
    obtain ⟨a, b⟩ := p
    rw [List.cons_append, getKey, getKey]
    by_cases ha : a = k'
    · rw [if_pos ha, if_pos ha]
    · rw [if_neg ha, if_neg ha]
      exact ih

theorem getKey_setKey_ne (kvs : List (String × Value)) (k k' : String) (v : Value)
    (h : k' ≠ k) : getKey (setKey kvs k v) k' = getKey kvs k' := by
  unfold setKey
  by_cases hh : hasKey kvs k
  · rw [if_pos hh, getKey_updateKey_ne _ _ _ _ h]
  · rw [if_neg hh, getKey_append_single_ne _ _ _ _ h]

theorem updateKey_map_fst (kvs : List (String × Value)) (k : String) (v : Value) :
    (updateKey kvs k v).map Prod.fst = kvs.map Prod.fst := by
  induction kvs with
  | nil => rfl
  | cons p rest ih =>
    obtain ⟨a, b⟩ := p
    by_cases ha : a = k
    · rw [updateKey, if_pos ha]
      simp [ih, ha]
    · rw [updateKey, if_neg ha]
      simp [ih]

theorem setKey_map_fst {kvs : List (String × Value)} {k : String} (v : Value)
    (h : hasKey kvs k) : (setKey kvs k v).map Prod.fst = kvs.map Prod.fst := by
  unfold setKey
  rw [if_pos h, updateKey_map_fst]

theorem hasKey_of_getKey {kvs : List (String × Value)} {k : String} {v : Value}
    (h : getKey kvs k = some v) : hasKey kvs k := by
  unfold hasKey
  simp [h]

/-! ## Masking lemmas -/

/-- The effect of one masking slot on a present value: truthy values are
replaced by the masked string, falsy values are left alone. -/
def maskSlot (v : Value) : Value :=
  if v.truthy then .vstr (maskString (pyStr v)) else v

theorem maskField_frame {kvs out : List (String × Value)} {sect field : String}
    (h : maskField kvs sect field = .ok out) {k : String} (hk : k ≠ sect) :
    getKey out k = getKey kvs k := by
  unfold maskField at h
  cases hg : getKey kvs sect with
  | none =>
    rw [hg] at h
    simp at h
    rw [h]
  | some sv =>
    rw [hg] at h
    cases sv with
    | vobj skvs =>
      dsimp at h
      by_cases ht : ((getKey skvs field).getD .vnull).truthy
      · rw [if_pos ht] at h
        simp at h
        rw [← h, getKey_setKey_ne _ _ _ _ hk]
      · rw [if_neg ht] at h
        simp at h
        rw [h]
    | vnull => simp at h
    | vbool b => simp at h
    | vnum q => simp at h
    | vstr s => simp at h
    | vlist xs => simp at h

theorem maskField_map_fst {kvs out : List (String × Value)} {sect field : String}
    (h : maskField kvs sect field = .ok out) :
    out.map Prod.fst = kvs.map Prod.fst := by
  unfold maskField at h
  cases hg : getKey kvs sect with
  | none =>
    rw [hg] at h
    simp at h
    rw [h]
  | some sv =>
    rw [hg] at h
    cases sv with
    | vobj skvs =>
      dsimp at h
      by_cases ht : ((getKey skvs field).getD .vnull).truthy
      · rw [if_pos ht] at h
        simp at h
        rw [← h, setKey_map_fst _ (hasKey_of_getKey hg)]
      · rw [if_neg ht] at h
        simp at h
        rw [h]
    | vnull => simp at h
    | vbool b => simp at h
    | vnum q => simp at h
    | vstr s => simp at h
    | vlist xs => simp at h

theorem maskField_spec {kvs skvs : List (String × Value)} {sect : String}
    (field : String) (hs : getKey kvs sect = some (.vobj skvs)) :
    ∃ out skvs', maskField kvs sect field = .ok out ∧
      getKey out sect = some (.vobj skvs') ∧
      getKey skvs' field = (getKey skvs field).map maskSlot ∧
      (∀ f, f ≠ field → getKey skvs' f = getKey skvs f) := by
  unfold maskField
  rw [hs]
  dsimp
  cases hv : getKey skvs field with
  | none =>
    refine ⟨kvs, skvs, ?_, hs, ?_, fun f _ => rfl⟩
    · simp [Value.truthy]
    · simp [hv]
  | some v =>
    by_cases ht : v.truthy
    · rw [if_pos (by simpa using ht)]
      refine ⟨_, setKey skvs field (.vstr (maskString (pyStr v))), rfl,
        getKey_setKey_self _ _ _, ?_, fun f hf => getKey_setKey_ne _ _ _ _ hf⟩
      rw [getKey_setKey_self]
      simp [maskSlot, ht]
    · rw [if_neg (by simpa using ht)]
      refine ⟨kvs, skvs, rfl, hs, ?_, fun f _ => rfl⟩
      simp [hv, maskSlot, ht]

theorem maskSensitiveData_frame {kvs out : List (String × Value)}
    (h : maskSensitiveData kvs = .ok out) {k : String}
    (h1 : k ≠ "employee") (h2 : k ≠ "employer") : getKey out k = getKey kvs k := by
  unfold maskSensitiveData at h
  cases h1g : maskField kvs "employee" "ssn" with
  | error e => rw [h1g] at h; simp at h
  | ok kvs1 =>
    rw [h1g] at h
    dsimp at h
    rw [maskField_frame h h2, maskField_frame h1g h1]

theorem maskSensitiveData_map_fst {kvs out : List (String × Value)}
    (h : maskSensitiveData kvs = .ok out) :
    out.map Prod.fst = kvs.map Prod.fst := by
  unfold maskSensitiveData at h
  cases h1g : maskField kvs "employee" "ssn" with
  | error e => rw [h1g] at h; simp at h
  | ok kvs1 =>
    rw [h1g] at h
    dsimp at h
    rw [maskField_map_fst h, maskField_map_fst h1g]

/-! ## State-normalization lemmas -/

theorem normalizeAddrState_frame {kvs out : List (String × Value)} {sect : String}
    (h : normalizeAddrState kvs sect = .ok out) {k : String} (hk : k ≠ sect) :
    getKey out k = getKey kvs k := by
  unfold normalizeAddrState at h
  split at h
  · simp at h; rw [← h]
  · split at h
    · simp at h; rw [← h]
    · split at h
      · split at h
        · simp at h; rw [← h]
        · split at h
          · simp at h; rw [← h, getKey_setKey_ne _ _ _ _ hk]
          · simp at h; rw [← h]
      · simp at h; rw [← h]
    · simp at h
  · split at h
    · simp at h
    · simp at h; rw [← h]
  · split at h
    · simp at h
    · simp at h; rw [← h]
  · simp at h

theorem normalizeAddrState_map_fst {kvs out : List (String × Value)} {sect : String}
    (h : normalizeAddrState kvs sect = .ok out) :
    out.map Prod.fst = kvs.map Prod.fst := by
  unfold normalizeAddrState at h
  split at h
  · simp at h; rw [← h]
  · rename_i hg
    split at h
    · simp at h; rw [← h]
    · split at h
      · split at h
        · simp at h; rw [← h]
        · split at h
          · simp at h
            rw [← h, setKey_map_fst _ (hasKey_of_getKey hg)]
          · simp at h; rw [← h]
      · simp at h; rw [← h]
    · simp at h
  · split at h
    · simp at h
    · simp at h; rw [← h]
  · split at h
    · simp at h
    · simp at h; rw [← h]
  · simp at h

theorem normalizeAddrState_spec {kvs skvs akvs : List (String × Value)} {sect : String}
    (hs : getKey kvs sect = some (.vobj skvs))
    (ha : getKey skvs "address" = some (.vobj akvs)) :
    ∃ out skvs' akvs', normalizeAddrState kvs sect = .ok out ∧
      getKey out sect = some (.vobj skvs') ∧
      getKey skvs' "address" = some (.vobj akvs') ∧
      getKey akvs' "state" = (getKey akvs "state").map normStateValue ∧
      (∀ f, f ≠ "state" → getKey akvs' f = getKey akvs f) ∧
      (∀ g, g ≠ "address" → getKey skvs' g = getKey skvs g) := by
  unfold normalizeAddrState
  rw [hs]
  dsimp only
  rw [ha]
  dsimp only
  cases hv : getKey akvs "state" with
  | none =>
    refine ⟨kvs, skvs, akvs, rfl, hs, ha, by simp [hv], fun f _ => rfl, fun g _ => rfl⟩
  | some v =>
    cases v with
    | vstr s =>
      dsimp only [Option.getD]
      by_cases he : s.isEmpty
      · rw [if_pos he]
        refine ⟨kvs, skvs, akvs, rfl, hs, ha, ?_, fun f _ => rfl, fun g _ => rfl⟩
        simp [hv, normStateValue, he]
      · rw [if_neg he]
        cases hl : lookupState (pyStrip (pyLower s)) with
        | some code =>
          refine ⟨_, _, _, rfl, getKey_setKey_self _ _ _, getKey_setKey_self _ _ _, ?_,
            fun f hf => getKey_setKey_ne _ _ _ _ hf,
            fun g hg => getKey_setKey_ne _ _ _ _ hg⟩
          rw [getKey_setKey_self]
          simp [normStateValue, he, normStateStr, hl]
        | none =>
          refine ⟨kvs, skvs, akvs, rfl, hs, ha, ?_, fun f _ => rfl, fun g _ => rfl⟩
          simp [hv, normStateValue, he, normStateStr, hl]
    | vnull =>
      exact ⟨kvs, skvs, akvs, rfl, hs, ha, by simp [hv, normStateValue], fun f _ => rfl,
        fun g _ => rfl⟩
    | vbool b =>
      exact ⟨kvs, skvs, akvs, rfl, hs, ha, by simp [hv, normStateValue], fun f _ => rfl,
        fun g _ => rfl⟩
    | vnum q =>
      exact ⟨kvs, skvs, akvs, rfl, hs, ha, by simp [hv, normStateValue], fun f _ => rfl,
        fun g _ => rfl⟩
    | vlist xs =>
      exact ⟨kvs, skvs, akvs, rfl, hs, ha, by simp [hv, normStateValue], fun f _ => rfl,
        fun g _ => rfl⟩
    | vobj o =>
      exact ⟨kvs, skvs, akvs, rfl, hs, ha, by simp [hv, normStateValue], fun f _ => rfl,
        fun g _ => rfl⟩

theorem normStateItem_spec (o : List (String × Value)) :
    ∃ o', normStateItem (.vobj o) = .ok (.vobj o') ∧
      getKey o' "state" = (getKey o "state").map normStateValue ∧
      (∀ f, f ≠ "state" → getKey o' f = getKey o f) := by
  unfold normStateItem
  dsimp only
  cases hv : getKey o "state" with
  | none => exact ⟨o, rfl, by simp [hv], fun f _ => rfl⟩
  | some v =>
    cases v with
    | vstr s =>
      dsimp only [Option.getD]
      by_cases he : s.isEmpty
      · rw [if_pos he]
        exact ⟨o, rfl, by simp [hv, normStateValue, he], fun f _ => rfl⟩
      · rw [if_neg he]
        cases hl : lookupState (pyStrip (pyLower s)) with
        | some code =>
          refine ⟨_, rfl, ?_, fun f hf => getKey_setKey_ne _ _ _ _ hf⟩
          rw [getKey_setKey_self]
          simp [normStateValue, he, normStateStr, hl]
        | none =>
          exact ⟨o, rfl, by simp [hv, normStateValue, he, normStateStr, hl], fun f _ => rfl⟩
    | vnull => exact ⟨o, rfl, by simp [hv, normStateValue], fun f _ => rfl⟩
    | vbool b => exact ⟨o, rfl, by simp [hv, normStateValue], fun f _ => rfl⟩
    | vnum q => exact ⟨o, rfl, by simp [hv, normStateValue], fun f _ => rfl⟩
    | vlist xs => exact ⟨o, rfl, by simp [hv, normStateValue], fun f _ => rfl⟩
    | vobj o2 => exact ⟨o, rfl, by simp [hv, normStateValue], fun f _ => rfl⟩

theorem mapStateItems_ok_of_all {f : Value → Except String Value} :
    ∀ {xs : List Value}, (∀ x ∈ xs, ∃ y, f x = .ok y) →
      ∃ ys, mapStateItems f xs = .ok ys := by
  intro xs
  induction xs with
  | nil => exact fun _ => ⟨[], rfl⟩
  | cons x rest ih =>
    intro hall
    obtain ⟨y, hy⟩ := hall x (by simp)
    obtain ⟨ys, hys⟩ := ih (fun z hz => hall z (by simp [hz]))
    exact ⟨y :: ys, by unfold mapStateItems; rw [hy, hys]⟩

theorem mapStateItems_get {f : Value → Except String Value} :
    ∀ {xs ys : List Value}, mapStateItems f xs = .ok ys →
      ys.length = xs.length ∧
      ∀ (i : Nat) (x : Value), xs[i]? = some x → ∃ y, ys[i]? = some y ∧ f x = .ok y := by
  intro xs
  induction xs with
  | nil =>
    intro ys h
    unfold mapStateItems at h
    simp at h
    subst h
    exact ⟨rfl, by simp⟩
  | cons x rest ih =>
    intro ys h
    unfold mapStateItems at h
    cases hf : f x with
    | error e => rw [hf] at h; simp at h
    | ok y =>
      rw [hf] at h
      dsimp at h
      cases hrest : mapStateItems f rest with
      | error e => rw [hrest] at h; simp at h
      | ok ys0 =>
        rw [hrest] at h
        simp at h
        subst h
        obtain ⟨hlen, helt⟩ := ih hrest
        refine ⟨by simp [hlen], ?_⟩
        intro i z hz
        cases i with
        | zero =>
          simp at hz
          subst hz
          exact ⟨y, by simp, hf⟩
        | succ j =>
          simp at hz ⊢
          exact helt j z hz

theorem normalizeStateLocal_frame {kvs out : List (String × Value)}
    (h : normalizeStateLocal kvs = .ok out) {k : String} (hk : k ≠ "state_local") :
    getKey out k = getKey kvs k := by
  unfold normalizeStateLocal at h
  split at h
  · simp at h; rw [← h]
  · split at h
    · simp at h; rw [← h, getKey_setKey_ne _ _ _ _ hk]
    · simp at h
  · split at h
    · simp at h; rw [← h]
    · simp at h
  · split at h
    · simp at h; rw [← h]
    · simp at h
  · simp at h

theorem normalizeStateLocal_map_fst {kvs out : List (String × Value)}
    (h : normalizeStateLocal kvs = .ok out) :
    out.map Prod.fst = kvs.map Prod.fst := by
  unfold normalizeStateLocal at h
  split at h
  · simp at h; rw [← h]
  · rename_i hg
    split at h
    · simp at h; rw [← h, setKey_map_fst _ (hasKey_of_getKey hg)]
    · simp at h
  · split at h
    · simp at h; rw [← h]
    · simp at h
  · split at h
    · simp at h; rw [← h]
    · simp at h
  · simp at h

theorem normalizeStateLocal_spec {kvs : List (String × Value)} {xs : List Value}
    (hs : getKey kvs "state_local" = some (.vlist xs))
    (hall : ∀ x ∈ xs, ∃ o, x = .vobj o) :
    ∃ out ys, normalizeStateLocal kvs = .ok out ∧
      getKey out "state_local" = some (.vlist ys) ∧
      ys.length = xs.length ∧
      ∀ (i : Nat) (o : List (String × Value)), xs[i]? = some (.vobj o) →
        ∃ o', ys[i]? = some (.vobj o') ∧
          getKey o' "state" = (getKey o "state").map normStateValue ∧
          (∀ f, f ≠ "state" → getKey o' f = getKey o f) := by
  have hok : ∀ x ∈ xs, ∃ y, normStateItem x = .ok y := by
    intro x hx
    obtain ⟨o, rfl⟩ := hall x hx
    obtain ⟨o', ho', _, _⟩ := normStateItem_spec o
    exact ⟨.vobj o', ho'⟩
  obtain ⟨ys, hys⟩ := mapStateItems_ok_of_all hok
  obtain ⟨hlen, helt⟩ := mapStateItems_get hys
  refine ⟨setKey kvs "state_local" (.vlist ys), ys, ?_, getKey_setKey_self _ _ _, hlen, ?_⟩
  · unfold normalizeStateLocal
    rw [hs]
    dsimp only
    rw [hys]
  · intro i o hio
    obtain ⟨y, hy, hoky⟩ := helt i (.vobj o) hio
    obtain ⟨o', ho', hst, hfr⟩ := normStateItem_spec o
    rw [ho'] at hoky
    have : Value.vobj o' = y := by
      injection hoky
    exact ⟨o', this ▸ hy, hst, hfr⟩

theorem normalizeStateCodes_frame {kvs out : List (String × Value)}
    (h : normalizeStateCodes kvs = .ok out) {k : String}
    (h1 : k ≠ "employee") (h2 : k ≠ "employer") (h3 : k ≠ "state_local") :
    getKey out k = getKey kvs k := by
  unfold normalizeStateCodes at h
  cases hg1 : normalizeAddrState kvs "employee" with
  | error e => rw [hg1] at h; simp at h
  | ok kvs1 =>
    rw [hg1] at h
    dsimp at h
    cases hg2 : normalizeAddrState kvs1 "employer" with
    | error e => rw [hg2] at h; simp at h
    | ok kvs2 =>
      rw [hg2] at h
      dsimp at h
      rw [normalizeStateLocal_frame h h3, normalizeAddrState_frame hg2 h2,
        normalizeAddrState_frame hg1 h1]

theorem normalizeStateCodes_map_fst {kvs out : List (String × Value)}
    (h : normalizeStateCodes kvs = .ok out) :
    out.map Prod.fst = kvs.map Prod.fst := by
  unfold normalizeStateCodes at h
  cases hg1 : normalizeAddrState kvs "employee" with
  | error e => rw [hg1] at h; simp at h
  | ok kvs1 =>
    rw [hg1] at h
    dsimp at h
    cases hg2 : normalizeAddrState kvs1 "employer" with
    | error e => rw [hg2] at h; simp at h
    | ok kvs2 =>
      rw [hg2] at h
      dsimp at h
      rw [normalizeStateLocal_map_fst h, normalizeAddrState_map_fst hg2,
        normalizeAddrState_map_fst hg1]

/-! ## Numeric-coercion lemmas -/

theorem convertFieldObj_self (fkvs : List (String × Value)) (f : String) :
    getKey (convertFieldObj fkvs f) f = (getKey fkvs f).map coerceValue := by
  unfold convertFieldObj
  cases hv : getKey fkvs f with
  | none => simp [hv]
  | some v =>
    dsimp only
    by_cases ht : v.truthy
    · cases v with
      | vstr s =>
        rw [if_pos ht]
        rw [getKey_setKey_self]
        simp [coerceValue, ht]
      | vnull => simp [Value.truthy] at ht
      | vbool b => rw [if_pos ht]; simp [hv, coerceValue, ht]
      | vnum q => rw [if_pos ht]; simp [hv, coerceValue, ht]
      | vlist xs => rw [if_pos ht]; simp [hv, coerceValue, ht]
      | vobj o => rw [if_pos ht]; simp [hv, coerceValue, ht]
    · rw [if_neg ht]
      simp [hv, coerceValue, ht]

theorem convertFieldObj_frame (fkvs : List (String × Value)) (f : String)
    {k : String} (hk : k ≠ f) :
    getKey (convertFieldObj fkvs f) k = getKey fkvs k := by
  unfold convertFieldObj
  cases hv : getKey fkvs f with
  | none => rfl
  | some v =>
    dsimp only
    by_cases ht : v.truthy
    · cases v with
      | vstr s => rw [if_pos ht]; exact getKey_setKey_ne _ _ _ _ hk
      | vnull => simp [Value.truthy] at ht
      | vbool b => rw [if_pos ht]
      | vnum q => rw [if_pos ht]
      | vlist xs => rw [if_pos ht]
      | vobj o => rw [if_pos ht]
    · rw [if_neg ht]

theorem convertFieldObj_map_fst (fkvs : List (String × Value)) (f : String) :
    (convertFieldObj fkvs f).map Prod.fst = fkvs.map Prod.fst := by
  unfold convertFieldObj
  cases hv : getKey fkvs f with
  | none => rfl
  | some v =>
    dsimp only
    by_cases ht : v.truthy
    · cases v with
      | vstr s => rw [if_pos ht]; exact setKey_map_fst _ (hasKey_of_getKey hv)
      | vnull => simp [Value.truthy] at ht
      | vbool b => rw [if_pos ht]
      | vnum q => rw [if_pos ht]
      | vlist xs => rw [if_pos ht]
      | vobj o => rw [if_pos ht]
    · rw [if_neg ht]

theorem foldFields_obj :
    ∀ (fields : List String) (fkvs : List (String × Value)), fields.Nodup →
      ∃ fkvs', foldFields (.vobj fkvs) fields = .ok (.vobj fkvs') ∧
        (∀ f ∈ fields, getKey fkvs' f = (getKey fkvs f).map coerceValue) ∧
        (∀ k, k ∉ fields → getKey fkvs' k = getKey fkvs k) := by
  intro fields
  induction fields with
  | nil => exact fun fkvs _ => ⟨fkvs, rfl, by simp, fun k _ => rfl⟩
  | cons f rest ih =>
    intro fkvs hnd
    have hnotin : f ∉ rest := (List.nodup_cons.mp hnd).1
    obtain ⟨fkvs', hfold, hpt, hfr⟩ := ih (convertFieldObj fkvs f) (List.nodup_cons.mp hnd).2
    refine ⟨fkvs', ?_, ?_, ?_⟩
    · unfold foldFields
      dsimp only [convertField]
      exact hfold
    · intro g hg
      rcases List.mem_cons.mp hg with hgf | hgr
      · subst hgf
        rw [hfr g hnotin, convertFieldObj_self]
      · have hgne : g ≠ f := fun hq => hnotin (hq ▸ hgr)
        rw [hpt g hgr, convertFieldObj_frame _ _ hgne]
    · intro k hk
      have hkf : k ≠ f := fun hq => hk (hq ▸ List.mem_cons_self _ _)
      have hkr : k ∉ rest := fun hq => hk (List.mem_cons_of_mem _ hq)
      rw [hfr k hkr, convertFieldObj_frame _ _ hkf]

theorem convertStateSection_frame {kvs2 out : List (String × Value)}
    (h : convertStateSection kvs2 = .ok out) {k : String} (hk : k ≠ "state_local") :
    getKey out k = getKey kvs2 k := by
  unfold convertStateSection at h
  split at h
  · simp at h; rw [← h]
  · split at h
    · simp at h; rw [← h, getKey_setKey_ne _ _ _ _ hk]
    · simp at h
  · simp at h; rw [← h]
  · split at h
    · simp at h; rw [← h]
    · simp at h
  · simp at h

theorem convertStateSection_map_fst {kvs2 out : List (String × Value)}
    (h : convertStateSection kvs2 = .ok out) :
    out.map Prod.fst = kvs2.map Prod.fst := by
  unfold convertStateSection at h
  split at h
  · simp at h; rw [← h]
  · rename_i hg
    split at h
    · simp at h; rw [← h, setKey_map_fst _ (hasKey_of_getKey hg)]
    · simp at h
  · simp at h; rw [← h]
  · split at h
    · simp at h; rw [← h]
    · simp at h
  · simp at h

theorem convertStateItem_obj (o : List (String × Value)) :
    ∃ o', convertStateItem (.vobj o) = .ok (.vobj o') ∧
      (∀ f ∈ stateMonetaryFields, getKey o' f = (getKey o f).map coerceValue) ∧
      (∀ k, k ∉ stateMonetaryFields → getKey o' k = getKey o k) := by
  have hnd : stateMonetaryFields.Nodup := by
    unfold stateMonetaryFields
    simp
  obtain ⟨o', hf, hpt, hfr⟩ := foldFields_obj stateMonetaryFields o hnd
  exact ⟨o', hf, hpt, hfr⟩

theorem convertStateSection_spec {kvs2 : List (String × Value)} {xs : List Value}
    (hs : getKey kvs2 "state_local" = some (.vlist xs))
    (hall : ∀ x ∈ xs, ∃ o, x = .vobj o) :
    ∃ out ys, convertStateSection kvs2 = .ok out ∧
      getKey out "state_local" = some (.vlist ys) ∧
      ys.length = xs.length ∧
      ∀ (i : Nat) (o : List (String × Value)), xs[i]? = some (.vobj o) →
        ∃ o', ys[i]? = some (.vobj o') ∧
          (∀ f ∈ stateMonetaryFields, getKey o' f = (getKey o f).map coerceValue) ∧
          (∀ k, k ∉ stateMonetaryFields → getKey o' k = getKey o k) := by
  have hok : ∀ x ∈ xs, ∃ y, convertStateItem x = .ok y := by
    intro x hx
    obtain ⟨o, rfl⟩ := hall x hx
    obtain ⟨o', ho', _, _⟩ := convertStateItem_obj o
    exact ⟨.vobj o', ho'⟩
  obtain ⟨ys, hys⟩ := mapStateItems_ok_of_all hok
  obtain ⟨hlen, helt⟩ := mapStateItems_get hys
  refine ⟨setKey kvs2 "state_local" (.vlist ys), ys, ?_, getKey_setKey_self _ _ _, hlen, ?_⟩
  · unfold convertStateSection
    rw [hs]
    dsimp only
    rw [hys]
  · intro i o hio
    obtain ⟨y, hy, hoky⟩ := helt i (.vobj o) hio
    obtain ⟨o', ho', hpt, hfr⟩ := convertStateItem_obj o
    rw [ho'] at hoky
    have : Value.vobj o' = y := by injection hoky
    exact ⟨o', this ▸ hy, hpt, hfr⟩

theorem convertNumericFields_frame {kvs out : List (String × Value)}
    (h : convertNumericFields kvs = .ok out) {k : String}
    (h1 : k ≠ "federal") (h2 : k ≠ "state_local") :
    getKey out k = getKey kvs k := by
  unfold convertNumericFields at h
  cases hg : getKey kvs "federal" with
  | none =>
    rw [hg] at h
    exact convertStateSection_frame h h2
  | some fv =>
    rw [hg] at h
    dsimp at h
    cases hf : foldFields fv monetaryFields with
    | error e => rw [hf] at h; simp at h
    | ok fv2 =>
      rw [hf] at h
      dsimp at h
      rw [convertStateSection_frame h h2, getKey_setKey_ne _ _ _ _ h1]

theorem convertNumericFields_map_fst {kvs out : List (String × Value)}
    (h : convertNumericFields kvs = .ok out) :
    out.map Prod.fst = kvs.map Prod.fst := by
  unfold convertNumericFields at h
  cases hg : getKey kvs "federal" with
  | none =>
    rw [hg] at h
    exact convertStateSection_map_fst h
  | some fv =>
    rw [hg] at h
    dsimp at h
    cases hf : foldFields fv monetaryFields with
    | error e => rw [hf] at h; simp at h
    | ok fv2 =>
      rw [hf] at h
      dsimp at h
      rw [convertStateSection_map_fst h, setKey_map_fst _ (hasKey_of_getKey hg)]

/-! ## Quality-report lemmas -/

/-- Presence of a dotted path through nested mappings: every segment exists
and its value is neither null nor the empty string. -/
def pathPresentSpec (v : Value) : List String → Bool
  | [] => true
  | p :: rest =>
    match v with
    | .vobj kvs =>
      match getKey kvs p with
      | some w => notNullOrEmpty w && pathPresentSpec w rest
      | none => false
    | _ => false

theorem checkPath_ok :
    ∀ (parts : List String) (v : Value) {b : Bool},
      checkPath v parts = .ok b → pathPresentSpec v parts = b := by
  intro parts
  induction parts with
  | nil =>
    intro v b h
    unfold checkPath at h
    simp at h
    simp [pathPresentSpec, h]
  | cons p rest ih =>
    intro v b h
    unfold checkPath at h
    cases v with
    | vobj kvs =>
      rw [show pyInStr p (.vobj kvs) = .ok (hasKey kvs p) from rfl] at h
      by_cases hpk : hasKey kvs p = true
      · rw [hpk] at h
        dsimp at h
        cases hg : getKey kvs p with
        | none => unfold hasKey at hpk; rw [hg] at hpk; simp at hpk
        | some w =>
          rw [show subscript (.vobj kvs) p =
            (match getKey kvs p with
              | some x => Except.ok x
              | none => Except.error "KeyError") from rfl, hg] at h
          dsimp at h
          by_cases hne : notNullOrEmpty w
          · rw [if_pos hne] at h
            simp [pathPresentSpec, hg, hne, ih w h]
          · rw [if_neg hne] at h
            simp at h
            simp [pathPresentSpec, hg, hne, ← h]
      · have hpk' : hasKey kvs p = false := by
          cases hv2 : hasKey kvs p
          · rfl
          · exact absurd hv2 hpk
        rw [hpk'] at h
        dsimp at h
        simp at h
        have hg : getKey kvs p = none := getKey_none_of_not_hasKey hpk
        simp [pathPresentSpec, hg, ← h]
    | vstr s =>
      rw [show pyInStr p (.vstr s) =
        .ok (decide ((s.splitOn p).length > 1)) from rfl] at h
      by_cases hsub : (s.splitOn p).length > 1
      · rw [show (decide ((s.splitOn p).length > 1)) = true from by simpa using hsub] at h
        dsimp at h
        rw [show subscript (.vstr s) p = .error "TypeError" from rfl] at h
        simp at h
      · rw [show (decide ((s.splitOn p).length > 1)) = false from by simpa using hsub] at h
        dsimp at h
        simp at h
        simp [pathPresentSpec, ← h]
    | vlist xs =>
      rw [show pyInStr p (.vlist xs) =
        .ok (xs.any fun x => match x with | .vstr t => t = p | _ => false) from rfl] at h
      by_cases hmem : (xs.any fun x => match x with | .vstr t => t = p | _ => false) = true
      · rw [hmem] at h
        dsimp at h
        rw [show subscript (.vlist xs) p = .error "TypeError" from rfl] at h
        simp at h
      · have hmem' : (xs.any fun x => match x with | .vstr t => t = p | _ => false) = false := by
          cases hv2 : (xs.any fun x => match x with | .vstr t => t = p | _ => false)
          · rfl
          · exact absurd hv2 hmem
        rw [hmem'] at h
        dsimp at h
        simp at h
        simp [pathPresentSpec, ← h]
    | vnull => simp [pyInStr] at h
    | vbool b2 => simp [pyInStr] at h
    | vnum q => simp [pyInStr] at h

theorem computeMissing_ok :
    ∀ (l : List String) (v : Value) {m : List String},
      computeMissing v l = .ok m →
      m = l.filter (fun fp => !(pathPresentSpec v (splitOnDot fp))) := by
  intro l
  induction l with
  | nil =>
    intro v m h
    unfold computeMissing at h
    simp at h
    subst h
    simp
  | cons fp rest ih =>
    intro v m h
    unfold computeMissing at h
    cases hc : checkPath v (splitOnDot fp) with
    | error e => rw [hc] at h; simp at h
    | ok found =>
      rw [hc] at h
      dsimp at h
      cases hr : computeMissing v rest with
      | error e => rw [hr] at h; simp at h
      | ok others =>
        rw [hr] at h
        simp at h
        have hspec := checkPath_ok (splitOnDot fp) v hc
        cases found with
        | true => simp [← h, List.filter_cons, hspec, ih v hr]
        | false => simp [← h, List.filter_cons, hspec, ih v hr]

theorem generateQualityReport_ok {kvs report : List (String × Value)}
    {text method : String}
    (h : generateQualityReport kvs text method = .ok report) :
    ∃ missing inconsistent,
      computeMissing (.vobj kvs) criticalFields = .ok missing ∧
      inconsistencyCheck ((getKey kvs "federal").getD (.vobj [])) = .ok inconsistent ∧
      report = assembleReport missing inconsistent text method := by
  unfold generateQualityReport at h
  cases hm : computeMissing (.vobj kvs) criticalFields with
  | error e => rw [hm] at h; simp at h
  | ok missing =>
    rw [hm] at h
    dsimp at h
    cases hi : inconsistencyCheck ((getKey kvs "federal").getD (.vobj [])) with
    | error e => rw [hi] at h; simp at h
    | ok inconsistent =>
      rw [hi] at h
      simp at h
      exact ⟨missing, inconsistent, rfl, rfl, h.symm⟩

theorem assembleReport_confidence (missing : List String) (inconsistent : Bool)
    (text method : String) :
    getKey (assembleReport missing inconsistent text method) "confidence" =
      some (.vstr (if (pyStrip text).length < 50 then "low"
        else if (pyStrip text).length < 200 then "medium"
        else if missing.isEmpty then "high" else "medium")) := by
  unfold assembleReport
  simp only [getKey, if_pos rfl]
  split_ifs with h1 h2 h3 <;> simp_all

theorem assembleReport_text_quality (missing : List String) (inconsistent : Bool)
    (text method : String) :
    getKey (assembleReport missing inconsistent text method) "text_quality" =
      some (.vstr (if (pyStrip text).length < 50 then "poor"
        else if (pyStrip text).length < 200 then "fair" else "good")) := by
  unfold assembleReport
  simp [getKey]

theorem assembleReport_warnings (missing : List String) (inconsistent : Bool)
    (text method : String) :
    getKey (assembleReport missing inconsistent text method) "warnings" =
      some (.vlist (((if missing.isEmpty then ([] : List String) else [missingMsg missing]) ++
        (if (pyStrip text).length < 50 then [lowTextMsg] else []) ++
        (if inconsistent then [inconsistencyMsg] else [])).map .vstr)) := by
  unfold assembleReport
  simp only [getKey]
  split_ifs with h1 h2 h3 <;> simp_all

theorem assembleReport_method (missing : List String) (inconsistent : Bool)
    (text method : String) :
    getKey (assembleReport missing inconsistent text method) "extraction_method" =
      some (.vstr method) := by
  unfold assembleReport
  simp [getKey]

theorem assembleReport_text_length (missing : List String) (inconsistent : Bool)
    (text method : String) :
    getKey (assembleReport missing inconsistent text method) "text_length" =
      some (.vnum ((pyStrip text).length : Nat)) := by
  unfold assembleReport
  simp [getKey]

theorem assembleReport_missing_count (missing : List String) (inconsistent : Bool)
    (text method : String) :
    getKey (assembleReport missing inconsistent text method) "critical_fields_missing" =
      some (.vnum (missing.length : Nat)) := by
  unfold assembleReport
  simp [getKey]

/-! ## Orchestration lemmas -/

theorem pipelineRun_ok {env : PipelineEnv} {p : String} {v : Value}
    (h : pipelineRun env p = .ok v) :
    ∃ text method extracted nd addr ins insList missing inconsistent,
      env.extractText p = .ok (text, method) ∧
      env.extractW2Data text = .ok extracted ∧
      normalizeData extracted = .ok nd ∧
      getEmployeeAddress nd = .ok addr ∧
      env.generateInsights (.vobj nd) addr = .ok ins ∧
      computeMissing (.vobj nd) criticalFields = .ok missing ∧
      inconsistencyCheck ((getKey nd "federal").getD (.vobj [])) = .ok inconsistent ∧
      dictGet ins "insights" (.vlist []) = .ok insList ∧
      v = .vobj [("fields", .vobj nd), ("insights", insList),
        ("quality", .vobj (assembleReport missing inconsistent text method))] := by
  unfold pipelineRun at h
  cases h1 : env.extractText p with
  | error e => rw [h1] at h; simp at h
  | ok tm =>
    obtain ⟨text, method⟩ := tm
    rw [h1] at h
    dsimp at h
    cases h2 : env.extractW2Data text with
    | error e => rw [h2] at h; simp at h
    | ok extracted =>
      rw [h2] at h
      dsimp at h
      cases h3 : normalizeData extracted with
      | error e => rw [h3] at h; simp at h
      | ok nd =>
        rw [h3] at h
        dsimp at h
        cases h4 : getEmployeeAddress nd with
        | error e => rw [h4] at h; simp at h
        | ok addr =>
          rw [h4] at h
          dsimp at h
          cases h5 : env.generateInsights (.vobj nd) addr with
          | error e => rw [h5] at h; simp at h
          | ok ins =>
            rw [h5] at h
            dsimp at h
            cases h6 : generateQualityReport nd text method with
            | error e => rw [h6] at h; simp at h
            | ok quality =>
              rw [h6] at h
              dsimp at h
              cases h7 : dictGet ins "insights" (.vlist []) with
              | error e => rw [h7] at h; simp at h
              | ok insList =>
                rw [h7] at h
                simp at h
                obtain ⟨missing, inconsistent, hm, hi, hq⟩ := generateQualityReport_ok h6
                exact ⟨text, method, extracted, nd, addr, ins, insList, missing,
                  inconsistent, rfl, h2, h3, h4, h5, hm, hi, h7, by rw [← h, hq]⟩

theorem processW2_of_error {env : PipelineEnv} {p : String} {e : String}
    (h : pipelineRun env p = .error e) : processW2 env p = degradedResult e := by
  unfold processW2
  rw [h]

/-! ## Normalization-pass lemmas -/

theorem maskField_empty_obj {kvs : List (String × Value)} {sect : String}
    (field : String) (hs : getKey kvs sect = some (.vobj [])) :
    maskField kvs sect field = .ok kvs := by
  unfold maskField
  rw [hs]
  rfl

theorem normalizeAddrState_empty_obj {kvs : List (String × Value)} {sect : String}
    (hs : getKey kvs sect = some (.vobj [])) :
    normalizeAddrState kvs sect = .ok kvs := by
  unfold normalizeAddrState
  rw [hs]
  rfl

theorem normalizeData_ok_shape {kvs out : List (String × Value)}
    (hne : kvs ≠ [])
    (h : normalizeData (.vobj kvs) = .ok out) :
    ∃ n1 n2, maskSensitiveData [
        ("employee", (getKey kvs "employee").getD (.vobj [])),
        ("employer", (getKey kvs "employer").getD (.vobj [])),
        ("federal", (getKey kvs "federal").getD (.vobj [])),
        ("state_local", (getKey kvs "state_local").getD (.vlist [])),
        ("other_boxes", (getKey kvs "other_boxes").getD (.vobj []))] = .ok n1 ∧
      normalizeStateCodes n1 = .ok n2 ∧
      convertNumericFields n2 = .ok out := by
  unfold normalizeData at h
  rw [show (Value.vobj kvs).truthy = true by
    simp [Value.truthy, hne]] at h
  dsimp at h
  cases hm : maskSensitiveData [
      ("employee", (getKey kvs "employee").getD (.vobj [])),
      ("employer", (getKey kvs "employer").getD (.vobj [])),
      ("federal", (getKey kvs "federal").getD (.vobj [])),
      ("state_local", (getKey kvs "state_local").getD (.vlist [])),
      ("other_boxes", (getKey kvs "other_boxes").getD (.vobj []))] with
  | error e => rw [hm] at h; simp at h
  | ok n1 =>
    rw [hm] at h
    dsimp at h
    cases hn : normalizeStateCodes n1 with
    | error e => rw [hn] at h; simp at h
    | ok n2 =>
      rw [hn] at h
      dsimp at h
      exact ⟨n1, n2, rfl, hn, h⟩

/-! ## Observation helpers -/

/-- The value at `kvs[k1][k2]` when the first level is a mapping. -/
def getPath2 (kvs : List (String × Value)) (k1 k2 : String) : Option Value :=
  match getKey kvs k1 with
  | some (.vobj s) => getKey s k2
  | _ => none

/-- The value at `kvs[k1][k2][k3]` when the first two levels are mappings. -/
def getPath3 (kvs : List (String × Value)) (k1 k2 k3 : String) : Option Value :=
  match getPath2 kvs k1 k2 with
  | some (.vobj a) => getKey a k3
  | _ => none

/-! ## Masking helper lemmas at the tree level -/

theorem maskSensitiveData_employee {kvs out ekvs : List (String × Value)}
    (hok : maskSensitiveData kvs = .ok out)
    (hs : getKey kvs "employee" = some (.vobj ekvs)) :
    ∃ ekvs', getKey out "employee" = some (.vobj ekvs') ∧
      getKey ekvs' "ssn" = (getKey ekvs "ssn").map maskSlot := by
  obtain ⟨out1, ekvs', h1, hsec, hssn, _⟩ := maskField_spec "ssn" hs
  unfold maskSensitiveData at hok
  rw [h1] at hok
  dsimp at hok
  exact ⟨ekvs', by rw [maskField_frame hok (by decide), hsec], hssn⟩

theorem maskSensitiveData_employer {kvs out rkvs : List (String × Value)}
    (hok : maskSensitiveData kvs = .ok out)
    (hs : getKey kvs "employer" = some (.vobj rkvs)) :
    ∃ rkvs', getKey out "employer" = some (.vobj rkvs') ∧
      getKey rkvs' "ein" = (getKey rkvs "ein").map maskSlot := by
  unfold maskSensitiveData at hok
  cases h1 : maskField kvs "employee" "ssn" with
  | error e => rw [h1] at hok; simp at hok
  | ok kvs1 =>
    rw [h1] at hok
    dsimp at hok
    have hs1 : getKey kvs1 "employer" = some (.vobj rkvs) := by
      rw [maskField_frame h1 (by decide), hs]
    obtain ⟨out2, rkvs', h2, hsec, hein, _⟩ := maskField_spec "ein" hs1
    have hoo : out2 = out := by
      rw [h2] at hok
      exact Except.ok.inj hok
    exact ⟨rkvs', hoo ▸ hsec, hein⟩

theorem truthy_vstr_of_ne {s : String} (h : s ≠ "") : (Value.vstr s).truthy = true := by
  have he : s.isEmpty = false := by
    cases he : s.isEmpty
    · rfl
    · exact absurd ((String.isEmpty_iff s).mp he) h
  simp [Value.truthy, he]

/-- C2: masking of `employee.ssn` and `employer.ein`: strip non-digits; with
at least 4 digits keep `***-**-` plus the last 4, otherwise the fixed
sentinel; absent and empty fields are untouched; the identical template
serves both fields. -/
theorem mask_sensitive_spec :
    (∀ s : String, 4 ≤ (s.toList.filter Char.isDigit).length →
      maskString s = "***-**-" ++ String.mk ((s.toList.filter Char.isDigit).drop
        ((s.toList.filter Char.isDigit).length - 4))) ∧
    (∀ s : String, (s.toList.filter Char.isDigit).length < 4 →
      maskString s = "***-**-****") ∧
    (∀ kvs out ekvs s, maskSensitiveData kvs = .ok out →
      getKey kvs "employee" = some (.vobj ekvs) →
      getKey ekvs "ssn" = some (.vstr s) → s ≠ "" →
      getPath2 out "employee" "ssn" = some (.vstr (maskString s))) ∧
    (∀ kvs out ekvs, maskSensitiveData kvs = .ok out →
      getKey kvs "employee" = some (.vobj ekvs) →
      getKey ekvs "ssn" = none →
      getPath2 out "employee" "ssn" = none) ∧
    (∀ kvs out ekvs, maskSensitiveData kvs = .ok out →
      getKey kvs "employee" = some (.vobj ekvs) →
      getKey ekvs "ssn" = some (.vstr "") →
      getPath2 out "employee" "ssn" = some (.vstr "")) ∧
    (∀ kvs out rkvs s, maskSensitiveData kvs = .ok out →
      getKey kvs "employer" = some (.vobj rkvs) →
      getKey rkvs "ein" = some (.vstr s) → s ≠ "" →
      getPath2 out "employer" "ein" = some (.vstr (maskString s))) ∧
    (∀ kvs out rkvs, maskSensitiveData kvs = .ok out →
      getKey kvs "employer" = some (.vobj rkvs) →
      getKey rkvs "ein" = none →
      getPath2 out "employer" "ein" = none) ∧
    (∀ kvs out rkvs, maskSensitiveData kvs = .ok out →
      getKey kvs "employer" = some (.vobj rkvs) →
      getKey rkvs "ein" = some (.vstr "") →
      getPath2 out "employer" "ein" = some (.vstr "")) := by
  refine ⟨?_, ?_, ?_, ?_, ?_, ?_, ?_, ?_⟩
  · intro s h
    unfold maskString
    rw [if_pos h]
  · intro s h
    unfold maskString
    rw [if_neg (by omega)]
  · intro kvs out ekvs s hok hs hssn hne
    obtain ⟨ekvs', hsec, hmap⟩ := maskSensitiveData_employee hok hs
    unfold getPath2
    rw [hsec]
    dsimp only
    rw [hmap, hssn]
    simp [maskSlot, truthy_vstr_of_ne hne, pyStr]
  · intro kvs out ekvs hok hs hssn
    obtain ⟨ekvs', hsec, hmap⟩ := maskSensitiveData_employee hok hs
    unfold getPath2
    rw [hsec]
    dsimp only
    rw [hmap, hssn]
    rfl
  · intro kvs out ekvs hok hs hssn
    obtain ⟨ekvs', hsec, hmap⟩ := maskSensitiveData_employee hok hs
    unfold getPath2
    rw [hsec]
    dsimp only
    rw [hmap, hssn]
    rfl
  · intro kvs out rkvs s hok hs hein hne
    obtain ⟨rkvs', hsec, hmap⟩ := maskSensitiveData_employer hok hs
    unfold getPath2
    rw [hsec]
    dsimp only
    rw [hmap, hein]
    simp [maskSlot, truthy_vstr_of_ne hne, pyStr]
  · intro kvs out rkvs hok hs hein
    obtain ⟨rkvs', hsec, hmap⟩ := maskSensitiveData_employer hok hs
    unfold getPath2
    rw [hsec]
    dsimp only
    rw [hmap, hein]
    rfl
  · intro kvs out rkvs hok hs hein
    obtain ⟨rkvs', hsec, hmap⟩ := maskSensitiveData_employer hok hs
    unfold getPath2
    rw [hsec]
    dsimp only
    rw [hmap, hein]
    rfl

/-- Witness for C2 at the test file's inputs: SSN `123-45-6789` and EIN
`12-3456789` both mask to `***-**-6789`. -/
theorem mask_sensitive_spec_witness :
    getPath2 [("employee", Value.vobj [("ssn", Value.vstr "***-**-6789")]),
      ("employer", Value.vobj [("ein", Value.vstr "***-**-6789")])]
      "employee" "ssn" = some (Value.vstr (maskString "123-45-6789")) ∧
    getPath2 [("employee", Value.vobj [("ssn", Value.vstr "***-**-6789")]),
      ("employer", Value.vobj [("ein", Value.vstr "***-**-6789")])]
      "employer" "ein" = some (Value.vstr (maskString "12-3456789")) := by
  constructor
  · exact mask_sensitive_spec.2.2.1
      [("employee", Value.vobj [("ssn", Value.vstr "123-45-6789")]),
       ("employer", Value.vobj [("ein", Value.vstr "12-3456789")])]
      _ _ "123-45-6789" (by rfl) (by rfl) (by rfl) (by decide)
  · exact mask_sensitive_spec.2.2.2.2.2.1
      [("employee", Value.vobj [("ssn", Value.vstr "123-45-6789")]),
       ("employer", Value.vobj [("ein", Value.vstr "12-3456789")])]
      _ _ "12-3456789" (by rfl) (by rfl) (by rfl) (by decide)

/-! ## State-normalization helper lemmas at the tree level -/

theorem normalizeStateCodes_employee {kvs out e a : List (String × Value)}
    (hok : normalizeStateCodes kvs = .ok out)
    (hs : getKey kvs "employee" = some (.vobj e))
    (ha : getKey e "address" = some (.vobj a)) :
    ∃ a', getPath2 out "employee" "address" = some (.vobj a') ∧
      getKey a' "state" = (getKey a "state").map normStateValue := by
  obtain ⟨out1, skvs', akvs', heq1, hsec1, haddr1, hstate1, _, _⟩ :=
    normalizeAddrState_spec hs ha
  unfold normalizeStateCodes at hok
  rw [heq1] at hok
  dsimp at hok
  cases h2 : normalizeAddrState out1 "employer" with
  | error e2 => rw [h2] at hok; simp at hok
  | ok kvs2 =>
    rw [h2] at hok
    dsimp at hok
    have hemp : getKey out "employee" = some (.vobj skvs') := by
      rw [normalizeStateLocal_frame hok (by decide),
        normalizeAddrState_frame h2 (by decide), hsec1]
    unfold getPath2
    rw [hemp]
    dsimp only
    rw [haddr1]
    exact ⟨akvs', rfl, hstate1⟩

theorem normalizeStateCodes_employer {kvs out e a : List (String × Value)}
    (hok : normalizeStateCodes kvs = .ok out)
    (hs : getKey kvs "employer" = some (.vobj e))
    (ha : getKey e "address" = some (.vobj a)) :
    ∃ a', getPath2 out "employer" "address" = some (.vobj a') ∧
      getKey a' "state" = (getKey a "state").map normStateValue := by
  unfold normalizeStateCodes at hok
  cases h1 : normalizeAddrState kvs "employee" with
  | error e1 => rw [h1] at hok; simp at hok
  | ok out1 =>
    rw [h1] at hok
    dsimp at hok
    have hs1 : getKey out1 "employer" = some (.vobj e) := by
      rw [normalizeAddrState_frame h1 (by decide), hs]
    obtain ⟨out2, skvs', akvs', heq2, hsec2, haddr2, hstate2, _, _⟩ :=
      normalizeAddrState_spec hs1 ha
    rw [heq2] at hok
    dsimp at hok
    have hemp : getKey out "employer" = some (.vobj skvs') := by
      rw [normalizeStateLocal_frame hok (by decide), hsec2]
    unfold getPath2
    rw [hemp]
    dsimp only
    rw [haddr2]
    exact ⟨akvs', rfl, hstate2⟩

theorem normalizeStateCodes_stateLocal {kvs out : List (String × Value)} {xs : List Value}
    (hok : normalizeStateCodes kvs = .ok out)
    (hs : getKey kvs "state_local" = some (.vlist xs))
    (hall : ∀ x ∈ xs, ∃ o, x = .vobj o) :
    ∃ ys, getKey out "state_local" = some (.vlist ys) ∧ ys.length = xs.length ∧
      ∀ (i : Nat) (o : List (String × Value)), xs[i]? = some (.vobj o) →
        ∃ o', ys[i]? = some (.vobj o') ∧
          getKey o' "state" = (getKey o "state").map normStateValue := by
  unfold normalizeStateCodes at hok
  cases h1 : normalizeAddrState kvs "employee" with
  | error e1 => rw [h1] at hok; simp at hok
  | ok out1 =>
    rw [h1] at hok
    dsimp at hok
    cases h2 : normalizeAddrState out1 "employer" with
    | error e2 => rw [h2] at hok; simp at hok
    | ok kvs2 =>
      rw [h2] at hok
      dsimp at hok
      have hs2 : getKey kvs2 "state_local" = some (.vlist xs) := by
        rw [normalizeAddrState_frame h2 (by decide),
          normalizeAddrState_frame h1 (by decide), hs]
      obtain ⟨out', ys, heq, hsec, hlen, helt⟩ := normalizeStateLocal_spec hs2 hall
      have hoo : out' = out := by
        rw [heq] at hok
        exact Except.ok.inj hok
      subst hoo
      exact ⟨ys, hsec, hlen, fun i o hio => by
        obtain ⟨o', hy, hst, _⟩ := helt i o hio
        exact ⟨o', hy, hst⟩⟩

/-- The per-state table sanity check behind C4: the table pairs each full
name with its 2-letter form, both mapping to the same canonical uppercase
2-letter code, and both spellings normalize to that code. -/
def stateTableCheck : Bool :=
  (List.range 50).all fun i =>
    match stateMapping[2*i]?, stateMapping[2*i+1]? with
    | some (name, code), some (abbr, code2) =>
      code2 = code && normStateStr name = code && normStateStr abbr = code &&
      abbr = pyLower code && code.length = 2 && code.toList.all (fun c => c.isUpper)
    | _, _ => false

/-- C4: state-code normalization at `employee.address.state`,
`employer.address.state` and every `state_local[i].state`: a truthy string is
rewritten through the 50-state table after trimming and lower-casing; the
table holds exactly 50 states with name and abbreviation mapping to the same
canonical code; non-matching strings, non-strings and missing fields are
unchanged. -/
theorem normalize_state_codes_spec :
    (stateMapping.length = 100 ∧ stateTableCheck = true) ∧
    (∀ s c, lookupState (pyStrip (pyLower s)) = some c → normStateStr s = c) ∧
    (∀ s, lookupState (pyStrip (pyLower s)) = none → normStateStr s = s) ∧
    (∀ kvs out e a s, normalizeStateCodes kvs = .ok out →
      getKey kvs "employee" = some (.vobj e) →
      getKey e "address" = some (.vobj a) →
      getKey a "state" = some (.vstr s) → s ≠ "" →
      getPath3 out "employee" "address" "state" = some (.vstr (normStateStr s))) ∧
    (∀ kvs out e a v, normalizeStateCodes kvs = .ok out →
      getKey kvs "employee" = some (.vobj e) →
      getKey e "address" = some (.vobj a) →
      getKey a "state" = some v → (∀ t, v ≠ .vstr t) →
      getPath3 out "employee" "address" "state" = some v) ∧
    (∀ kvs out e a, normalizeStateCodes kvs = .ok out →
      getKey kvs "employee" = some (.vobj e) →
      getKey e "address" = some (.vobj a) →
      getKey a "state" = none →
      getPath3 out "employee" "address" "state" = none) ∧
    (∀ kvs out e a s, normalizeStateCodes kvs = .ok out →
      getKey kvs "employer" = some (.vobj e) →
      getKey e "address" = some (.vobj a) →
      getKey a "state" = some (.vstr s) → s ≠ "" →
      getPath3 out "employer" "address" "state" = some (.vstr (normStateStr s))) ∧
    (∀ kvs out xs (i : Nat) o s, normalizeStateCodes kvs = .ok out →
      getKey kvs "state_local" = some (.vlist xs) →
      (∀ x ∈ xs, ∃ obj, x = .vobj obj) →
      xs[i]? = some (.vobj o) →
      getKey o "state" = some (.vstr s) → s ≠ "" →
      ∃ ys o', getKey out "state_local" = some (.vlist ys) ∧
        ys[i]? = some (.vobj o') ∧
        getKey o' "state" = some (.vstr (normStateStr s))) := by
  refine ⟨⟨by rfl, by rfl⟩, ?_, ?_, ?_, ?_, ?_, ?_, ?_⟩
  · intro s c h
    unfold normStateStr
    rw [h]
  · intro s h
    unfold normStateStr
    rw [h]
  · intro kvs out e a s hok hs ha hst hne
    obtain ⟨a', haddr, hmap⟩ := normalizeStateCodes_employee hok hs ha
    unfold getPath3
    rw [haddr]
    dsimp only
    rw [hmap, hst]
    have : s.isEmpty = false := by
      cases he : s.isEmpty
      · rfl
      · exact absurd ((String.isEmpty_iff s).mp he) hne
    simp [normStateValue, this]
  · intro kvs out e a v hok hs ha hst hnv
    obtain ⟨a', haddr, hmap⟩ := normalizeStateCodes_employee hok hs ha
    unfold getPath3
    rw [haddr]
    dsimp only
    rw [hmap, hst]
    cases v with
    | vstr t => exact absurd rfl (hnv t)
    | vnull => rfl
    | vbool b => rfl
    | vnum q => rfl
    | vlist l => rfl
    | vobj o2 => rfl
  · intro kvs out e a hok hs ha hst
    obtain ⟨a', haddr, hmap⟩ := normalizeStateCodes_employee hok hs ha
    unfold getPath3
    rw [haddr]
    dsimp only
    rw [hmap, hst]
    rfl
  · intro kvs out e a s hok hs ha hst hne
    obtain ⟨a', haddr, hmap⟩ := normalizeStateCodes_employer hok hs ha
    unfold getPath3
    rw [haddr]
    dsimp only
    rw [hmap, hst]
    have : s.isEmpty = false := by
      cases he : s.isEmpty
      · rfl
      · exact absurd ((String.isEmpty_iff s).mp he) hne
    simp [normStateValue, this]
  · intro kvs out xs i o s hok hs hall hio hst hne
    obtain ⟨ys, hsec, hlen, helt⟩ := normalizeStateCodes_stateLocal hok hs hall
    obtain ⟨o', hy, hmap⟩ := helt i o hio
    refine ⟨ys, o', hsec, hy, ?_⟩
    rw [hmap, hst]
    have : s.isEmpty = false := by
      cases he : s.isEmpty
      · rfl
      · exact absurd ((String.isEmpty_iff s).mp he) hne
    simp [normStateValue, this]

/-- Witness for C4 at the test file's inputs: `california` normalizes to
`CA` for the employee, `ny` to `NY` for the employer, and `Atlantis` passes
through unchanged. -/
theorem normalize_state_codes_spec_witness :
    getPath3 [("employee", Value.vobj [("address", Value.vobj [("state", Value.vstr "CA")])]),
      ("employer", Value.vobj [("address", Value.vobj [("state", Value.vstr "NY")])])]
      "employee" "address" "state" = some (Value.vstr (normStateStr "california")) ∧
    getPath3 [("employee", Value.vobj [("address", Value.vobj [("state", Value.vstr "CA")])]),
      ("employer", Value.vobj [("address", Value.vobj [("state", Value.vstr "NY")])])]
      "employer" "address" "state" = some (Value.vstr (normStateStr "ny")) ∧
    normStateStr "Atlantis" = "Atlantis" := by
  refine ⟨?_, ?_, ?_⟩
  · exact normalize_state_codes_spec.2.2.2.1
      [("employee", Value.vobj [("address", Value.vobj [("state", Value.vstr "california")])]),
       ("employer", Value.vobj [("address", Value.vobj [("state", Value.vstr "ny")])])]
      _ _ _ "california" (by rfl) (by rfl) (by rfl) (by rfl) (by decide)
  · exact normalize_state_codes_spec.2.2.2.2.2.2.1
      [("employee", Value.vobj [("address", Value.vobj [("state", Value.vstr "california")])]),
       ("employer", Value.vobj [("address", Value.vobj [("state", Value.vstr "ny")])])]
      _ _ _ "ny" (by rfl) (by rfl) (by rfl) (by rfl) (by decide)
  · exact normalize_state_codes_spec.2.2.1 "Atlantis" (by rfl)

/-! ## Numeric-coercion helper lemmas at the tree level -/

theorem convertNumericFields_federal {kvs out fkvs : List (String × Value)}
    (hok : convertNumericFields kvs = .ok out)
    (hf : getKey kvs "federal" = some (.vobj fkvs)) :
    ∃ fkvs', getKey out "federal" = some (.vobj fkvs') ∧
      ∀ f ∈ monetaryFields, getKey fkvs' f = (getKey fkvs f).map coerceValue := by
  unfold convertNumericFields at hok
  rw [hf] at hok
  dsimp at hok
  have hnd : monetaryFields.Nodup := by decide
  obtain ⟨fkvs', hfold, hpt, _⟩ := foldFields_obj monetaryFields fkvs hnd
  rw [hfold] at hok
  dsimp at hok
  refine ⟨fkvs', ?_, hpt⟩
  rw [convertStateSection_frame hok (by decide), getKey_setKey_self]

theorem convertNumericFields_stateLocal {kvs out : List (String × Value)} {xs : List Value}
    (hok : convertNumericFields kvs = .ok out)
    (hs : getKey kvs "state_local" = some (.vlist xs))
    (hall : ∀ x ∈ xs, ∃ o, x = .vobj o) :
    ∃ ys, getKey out "state_local" = some (.vlist ys) ∧ ys.length = xs.length ∧
      ∀ (i : Nat) (o : List (String × Value)), xs[i]? = some (.vobj o) →
        ∃ o', ys[i]? = some (.vobj o') ∧
          ∀ f ∈ stateMonetaryFields, getKey o' f = (getKey o f).map coerceValue := by
  unfold convertNumericFields at hok
  cases hg : getKey kvs "federal" with
  | none =>
    rw [hg] at hok
    obtain ⟨out', ys, heq, hsec, hlen, helt⟩ := convertStateSection_spec hs hall
    have hoo : out' = out := by
      rw [heq] at hok
      exact Except.ok.inj hok
    subst hoo
    exact ⟨ys, hsec, hlen, fun i o hio => by
      obtain ⟨o', hy, hpt, _⟩ := helt i o hio
      exact ⟨o', hy, hpt⟩⟩
  | some fv =>
    rw [hg] at hok
    dsimp at hok
    cases hfold : foldFields fv monetaryFields with
    | error e => rw [hfold] at hok; simp at hok
    | ok fv2 =>
      rw [hfold] at hok
      dsimp at hok
      have hs2 : getKey (setKey kvs "federal" fv2) "state_local" = some (.vlist xs) := by
        rw [getKey_setKey_ne _ _ _ _ (by decide), hs]
      obtain ⟨out', ys, heq, hsec, hlen, helt⟩ := convertStateSection_spec hs2 hall
      have hoo : out' = out := by
        rw [heq] at hok
        exact Except.ok.inj hok
      subst hoo
      exact ⟨ys, hsec, hlen, fun i o hio => by
        obtain ⟨o', hy, hpt, _⟩ := helt i o hio
        exact ⟨o', hy, hpt⟩⟩

/-- Counterexample to C3 as stated: an empty-string monetary field is falsy,
so the conversion guard `if field in data['federal'] and data['federal'][field]:`
skips it entirely — it remains the empty string instead of becoming the
null/absent marker. -/
theorem convert_numeric_empty_counterexample :
    convertNumericFields [("federal", Value.vobj [("wages_tips", Value.vstr "")])] =
      .ok [("federal", Value.vobj [("wages_tips", Value.vstr "")])] ∧
    getPath2 [("federal", Value.vobj [("wages_tips", Value.vstr "")])]
      "federal" "wages_tips" = some (Value.vstr "") ∧
    Value.vstr "" ≠ Value.vnull := by
  refine ⟨by rfl, by rfl, by simp⟩

/-- C3 as amended: for the ten federal monetary fields and the two
state-local monetary fields, a truthy (non-empty) string value is cleaned to
digits, `.` and `-`; if the cleaned string is non-empty and not `-` it
becomes the parsed number, otherwise (including parse failures) the explicit
null marker; falsy values — among them the empty string — and non-string
values pass through unchanged.  `"$75,000.00"` parses to `75000.0` and
`"15000"` to `15000.0`. -/
theorem convert_numeric_fields_spec :
    (∀ kvs out fkvs f, convertNumericFields kvs = .ok out →
      getKey kvs "federal" = some (.vobj fkvs) → f ∈ monetaryFields →
      getPath2 out "federal" f = (getKey fkvs f).map coerceValue) ∧
    (∀ kvs out xs (i : Nat) o f, convertNumericFields kvs = .ok out →
      getKey kvs "state_local" = some (.vlist xs) →
      (∀ x ∈ xs, ∃ obj, x = .vobj obj) →
      xs[i]? = some (.vobj o) → f ∈ stateMonetaryFields →
      ∃ ys o', getKey out "state_local" = some (.vlist ys) ∧
        ys[i]? = some (.vobj o') ∧
        getKey o' f = (getKey o f).map coerceValue) ∧
    (∀ s, s ≠ "" → coerceValue (.vstr s) = coerceNumStr s) ∧
    (coerceValue (.vstr "") = .vstr "") ∧
    (∀ q, coerceValue (.vnum q) = .vnum q) ∧
    (coerceValue .vnull = .vnull) ∧
    (coerceNumStr "$75,000.00" = .vnum 75000) ∧
    (coerceNumStr "15000" = .vnum 15000) ∧
    (coerceNumStr "-" = .vnull) ∧
    (coerceNumStr "$" = .vnull) ∧
    (coerceNumStr "1.2.3" = .vnull) := by
  refine ⟨?_, ?_, ?_, by rfl, fun q => by simp [coerceValue, Value.truthy],
    by rfl, ?_, ?_, by rfl, by rfl, by rfl⟩
  · intro kvs out fkvs f hok hf hmem
    obtain ⟨fkvs', hsec, hpt⟩ := convertNumericFields_federal hok hf
    unfold getPath2
    rw [hsec]
    dsimp only
    exact hpt f hmem
  · intro kvs out xs i o f hok hs hall hio hmem
    obtain ⟨ys, hsec, hlen, helt⟩ := convertNumericFields_stateLocal hok hs hall
    obtain ⟨o', hy, hpt⟩ := helt i o hio
    exact ⟨ys, o', hsec, hy, hpt f hmem⟩
  · intro s hne
    simp [coerceValue, truthy_vstr_of_ne hne]
  · have h : coerceNumStr "$75,000.00" =
        .vnum (((75000 : Nat) : Rat) + ((0 : Nat) : Rat) / (10 : Rat) ^ (2 : Nat)) := rfl
    rw [h]
    norm_num
  · have h : coerceNumStr "15000" =
        .vnum (((15000 : Nat) : Rat) + ((0 : Nat) : Rat) / (10 : Rat) ^ (0 : Nat)) := rfl
    rw [h]
    norm_num

/-- Witness for C3 (amended): an already-numeric field and an empty-string
field pass through the conversion unchanged. -/
theorem convert_numeric_fields_spec_witness :
    getPath2 [("federal", Value.vobj [("wages_tips", Value.vnum 5),
        ("federal_income_tax", Value.vstr "")])] "federal" "wages_tips" =
      (some (Value.vnum 5)).map coerceValue ∧
    getPath2 [("federal", Value.vobj [("wages_tips", Value.vnum 5),
        ("federal_income_tax", Value.vstr "")])] "federal" "federal_income_tax" =
      (some (Value.vstr "")).map coerceValue := by
  constructor
  · exact convert_numeric_fields_spec.1
      [("federal", Value.vobj [("wages_tips", Value.vnum 5),
        ("federal_income_tax", Value.vstr "")])]
      _ _ "wages_tips" (by rfl) (by rfl) (by decide)
  · exact convert_numeric_fields_spec.1
      [("federal", Value.vobj [("wages_tips", Value.vnum 5),
        ("federal_income_tax", Value.vstr "")])]
      _ _ "federal_income_tax" (by rfl) (by rfl) (by decide)

/-- C5: the confidence tier starts at `high` and is only ever downgraded:
missing critical fields cap it at `medium`; trimmed text length below 50
forces `low`, sets `text_quality` `poor` and appends a warning; length in
`[50, 200)` gives `fair` and `medium`; length at least 200 gives `good` with
no downgrade; with both downgrade conditions the result is `low`. -/
theorem quality_confidence_spec :
    ∀ kvs text method report missing,
      generateQualityReport kvs text method = .ok report →
      computeMissing (.vobj kvs) criticalFields = .ok missing →
      (getKey report "confidence" = some (.vstr (if (pyStrip text).length < 50 then "low"
        else if (pyStrip text).length < 200 then "medium"
        else if missing.isEmpty then "high" else "medium")) ∧
      getKey report "text_quality" = some (.vstr (if (pyStrip text).length < 50 then "poor"
        else if (pyStrip text).length < 200 then "fair" else "good")) ∧
      ((pyStrip text).length < 50 →
        ∃ ws, getKey report "warnings" = some (.vlist ws) ∧ Value.vstr lowTextMsg ∈ ws) ∧
      (¬missing.isEmpty → getKey report "confidence" ≠ some (.vstr "high")) ∧
      ((pyStrip text).length < 50 → getKey report "confidence" = some (.vstr "low")) ∧
      (¬missing.isEmpty ∧ (pyStrip text).length < 50 →
        getKey report "confidence" = some (.vstr "low"))) := by
  intro kvs text method report missing h hm
  obtain ⟨m2, inc, hm2, hi, hrep⟩ := generateQualityReport_ok h
  have hmm : m2 = missing := by
    rw [hm2] at hm
    exact Except.ok.inj hm
  subst hmm
  subst hrep
  refine ⟨assembleReport_confidence _ _ _ _, assembleReport_text_quality _ _ _ _,
    ?_, ?_, ?_, ?_⟩
  · intro htl
    rw [assembleReport_warnings]
    refine ⟨_, rfl, ?_⟩
    rw [if_pos htl]
    simp
  · intro hne
    rw [assembleReport_confidence]
    split_ifs with h1 h2 <;> simp_all
  · intro htl
    rw [assembleReport_confidence, if_pos htl]
  · rintro ⟨hne, htl⟩
    rw [assembleReport_confidence, if_pos htl]

/-- Witness for C5: with no fields and empty text the confidence is `low`,
the text quality `poor`, and the low-extraction warning is present. -/
theorem quality_confidence_spec_witness :
    generateQualityReport [] "" "m" = .ok (assembleReport criticalFields false "" "m") ∧
    getKey (assembleReport criticalFields false "" "m") "confidence" =
      some (Value.vstr "low") ∧
    getKey (assembleReport criticalFields false "" "m") "text_quality" =
      some (Value.vstr "poor") := by
  have h : generateQualityReport [] "" "m" =
      .ok (assembleReport criticalFields false "" "m") := by rfl
  have hm : computeMissing (.vobj []) criticalFields = .ok criticalFields := by rfl
  obtain ⟨hc, htq, _, _, hlow, _⟩ :=
    quality_confidence_spec [] "" "m" (assembleReport criticalFields false "" "m")
      criticalFields h hm
  exact ⟨h, hlow (by decide), by simpa using htq⟩

/-- C6: the four critical paths are checked by dotted-path lookup through
nested mappings; a path is missing exactly when a segment is absent or its
value is null or the empty string; any missing paths produce one warning
naming them all, set `critical_fields_missing` to their count and cap
confidence at `medium`. -/
theorem quality_missing_fields_spec :
    ∀ kvs text method report missing,
      generateQualityReport kvs text method = .ok report →
      computeMissing (.vobj kvs) criticalFields = .ok missing →
      (missing = criticalFields.filter
        (fun fp => !(pathPresentSpec (.vobj kvs) (splitOnDot fp))) ∧
      getKey report "critical_fields_missing" = some (.vnum (missing.length : Nat)) ∧
      (missing ≠ [] →
        ∃ ws, getKey report "warnings" = some (.vlist ws) ∧
          Value.vstr (missingMsg missing) ∈ ws ∧
          (getKey report "confidence" = some (.vstr "medium") ∨
           getKey report "confidence" = some (.vstr "low")))) := by
  intro kvs text method report missing h hm
  obtain ⟨m2, inc, hm2, hi, hrep⟩ := generateQualityReport_ok h
  have hmm : m2 = missing := by
    rw [hm2] at hm
    exact Except.ok.inj hm
  subst hmm
  subst hrep
  refine ⟨computeMissing_ok criticalFields (.vobj kvs) hm2,
    assembleReport_missing_count _ _ _ _, ?_⟩
  intro hne
  rw [assembleReport_warnings]
  refine ⟨_, rfl, ?_, ?_⟩
  · rw [if_neg (by simpa using hne)]
    simp
  · rw [assembleReport_confidence]
    split_ifs with h1 h2 h3 <;> simp_all

/-- Witness for C6 at the spec's scenario 5: `employee.ssn` and
`federal.wages_tips` missing gives a count of 2. -/
theorem quality_missing_fields_spec_witness :
    generateQualityReport
      [("employee", Value.vobj [("name", Value.vstr "A")]),
       ("federal", Value.vobj [("federal_income_tax", Value.vnum 1)])] "" "m" =
      .ok (assembleReport ["employee.ssn", "federal.wages_tips"] false "" "m") ∧
    getKey (assembleReport ["employee.ssn", "federal.wages_tips"] false "" "m")
      "critical_fields_missing" = some (.vnum ((2 : Nat) : Rat)) := by
  have h : generateQualityReport
      [("employee", Value.vobj [("name", Value.vstr "A")]),
       ("federal", Value.vobj [("federal_income_tax", Value.vnum 1)])] "" "m" =
      .ok (assembleReport ["employee.ssn", "federal.wages_tips"] false "" "m") := by rfl
  have hm : computeMissing (.vobj [("employee", Value.vobj [("name", Value.vstr "A")]),
      ("federal", Value.vobj [("federal_income_tax", Value.vnum 1)])]) criticalFields =
      .ok ["employee.ssn", "federal.wages_tips"] := by rfl
  obtain ⟨_, hcount, _⟩ := quality_missing_fields_spec _ "" "m" _ _ h hm
  exact ⟨h, by simpa using hcount⟩

theorem truthy_vnum_of_ne {q : Rat} (h : q ≠ 0) : (Value.vnum q).truthy = true := by
  simp [Value.truthy]
  exact h

/-- Counterexample to C7 as stated: with `wages_tips = 0.0` (present) and
`social_security_wages = 500.0 > 0.0`, the truthiness guard
`federal.get('wages_tips') and ...` short-circuits on the falsy zero and no
inconsistency warning is appended. -/
theorem quality_inconsistency_counterexample :
    generateQualityReport
      [("federal", Value.vobj [("wages_tips", Value.vnum 0),
        ("social_security_wages", Value.vnum 500)])] "" "m" =
      .ok (assembleReport ["employee.name", "employee.ssn", "federal.federal_income_tax"]
        false "" "m") ∧
    getKey (assembleReport ["employee.name", "employee.ssn", "federal.federal_income_tax"]
      false "" "m") "warnings" =
      some (.vlist [Value.vstr
        (missingMsg ["employee.name", "employee.ssn", "federal.federal_income_tax"]),
        Value.vstr lowTextMsg]) ∧
    Value.vstr inconsistencyMsg ∉
      [Value.vstr (missingMsg ["employee.name", "employee.ssn", "federal.federal_income_tax"]),
       Value.vstr lowTextMsg] ∧
    (0 : Rat) < 500 := by
  refine ⟨by rfl, by rfl, ?_, by norm_num⟩
  intro hmem
  rcases List.mem_cons.mp hmem with h | h
  · rw [Value.vstr.injEq] at h
    exact absurd h (by decide)
  · rcases List.mem_cons.mp h with h2 | h2
    · rw [Value.vstr.injEq] at h2
      exact absurd h2 (by decide)
    · simp at h2

/-- C7 as amended: whenever both `federal.wages_tips` and
`federal.social_security_wages` are present with truthy (non-zero) numeric
values and the latter exceeds the former, the inconsistency warning is
appended as the last warning; the check never alters the confidence tier,
which keeps its value determined by the missing fields and the text length
alone. -/
theorem quality_inconsistency_spec :
    ∀ kvs text method report fobj wt ssw,
      generateQualityReport kvs text method = .ok report →
      getKey kvs "federal" = some (.vobj fobj) →
      getKey fobj "wages_tips" = some (.vnum wt) → wt ≠ 0 →
      getKey fobj "social_security_wages" = some (.vnum ssw) → ssw ≠ 0 →
      wt < ssw →
      (∃ ws, getKey report "warnings" = some (.vlist ws) ∧
        ws.getLast? = some (Value.vstr inconsistencyMsg) ∧
        Value.vstr inconsistencyMsg ∈ ws) ∧
      (∀ missing, computeMissing (.vobj kvs) criticalFields = .ok missing →
        getKey report "confidence" = some (.vstr (if (pyStrip text).length < 50 then "low"
          else if (pyStrip text).length < 200 then "medium"
          else if missing.isEmpty then "high" else "medium"))) := by
  intro kvs text method report fobj wt ssw h hf hwt hwt0 hssw hssw0 hlt
  obtain ⟨m2, inc, hm2, hi, hrep⟩ := generateQualityReport_ok h
  have hinc : inc = true := by
    rw [hf] at hi
    unfold inconsistencyCheck at hi
    rw [show dictGet ((some (Value.vobj fobj)).getD (.vobj [])) "wages_tips" .vnull =
      .ok ((getKey fobj "wages_tips").getD .vnull) from rfl, hwt] at hi
    dsimp at hi
    rw [if_pos (truthy_vnum_of_ne hwt0)] at hi
    rw [show dictGet (Value.vobj fobj) "social_security_wages" .vnull =
      .ok ((getKey fobj "social_security_wages").getD .vnull) from rfl, hssw] at hi
    dsimp at hi
    rw [if_pos (truthy_vnum_of_ne hssw0)] at hi
    rw [show pyGt (Value.vnum ssw) (Value.vnum wt) = .ok (decide (wt < ssw)) from rfl] at hi
    rw [show decide (wt < ssw) = true by simpa using hlt] at hi
    exact (Except.ok.inj hi).symm
  subst hinc
  subst hrep
  constructor
  · rw [assembleReport_warnings]
    refine ⟨_, rfl, ?_, ?_⟩
    · rw [if_pos rfl, List.map_append]
      rw [show List.map Value.vstr [inconsistencyMsg] = [Value.vstr inconsistencyMsg] from rfl]
      rw [List.getLast?_concat]
    · rw [if_pos rfl]
      simp
  · intro missing hm
    have hmm : m2 = missing := by
      rw [hm2] at hm
      exact Except.ok.inj hm
    subst hmm
    exact assembleReport_confidence _ _ _ _

/-- Witness for C7 (amended): wages 5, social-security wages 6. -/
theorem quality_inconsistency_spec_witness :
    getKey (assembleReport ["employee.name", "employee.ssn", "federal.federal_income_tax"]
      true "" "m") "confidence" = some (Value.vstr "low") ∧
    generateQualityReport
      [("federal", Value.vobj [("wages_tips", Value.vnum 5),
        ("social_security_wages", Value.vnum 6)])] "" "m" =
      .ok (assembleReport ["employee.name", "employee.ssn", "federal.federal_income_tax"]
        true "" "m") := by
  have h : generateQualityReport
      [("federal", Value.vobj [("wages_tips", Value.vnum 5),
        ("social_security_wages", Value.vnum 6)])] "" "m" =
      .ok (assembleReport ["employee.name", "employee.ssn", "federal.federal_income_tax"]
        true "" "m") := by rfl
  have hconf := (quality_inconsistency_spec _ "" "m" _ _ 5 6 h (by rfl) (by rfl)
    (by norm_num) (by rfl) (by norm_num) (by norm_num)).2
    ["employee.name", "employee.ssn", "federal.federal_income_tax"] (by rfl)
  exact ⟨by simpa using hconf, h⟩

/-- The value at key `k` of a dict-shaped value. -/
def objGet (v : Value) (k : String) : Option Value :=
  match v with
  | .vobj kvs => getKey kvs k
  | _ => none

/-- C1: in non-test mode, an exception in any pipeline step is caught by the
catch-all of `process_w2`, which returns the degraded result: empty `fields`,
a single-element `insights` list describing the error, and a quality report
with confidence `low`, a warnings list carrying the error description, and
extraction method `failed`. -/
theorem process_w2_degraded_on_error :
    ∀ env p e, pipelineRun env p = .error e →
      processW2 env p = degradedResult e ∧
      objGet (degradedResult e) "fields" = some (.vobj []) ∧
      objGet (degradedResult e) "insights" =
        some (.vlist [.vstr ("• Processing error: " ++ e)]) ∧
      objGet (degradedResult e) "quality" = some (.vobj [
        ("confidence", .vstr "low"),
        ("warnings", .vlist [.vstr ("Processing failed: " ++ e)]),
        ("ocr_quality", .vstr "unknown"),
        ("extraction_method", .vstr "failed")]) := by
  intro env p e h
  exact ⟨processW2_of_error h, rfl, rfl, rfl⟩

/-- Witness for C1: a pipeline whose extraction step raises. -/
theorem process_w2_degraded_on_error_witness :
    processW2 ⟨fun _ => .error "boom", fun _ => .error "x", fun _ _ => .error "y"⟩
      "w2.pdf" = degradedResult "boom" :=
  (process_w2_degraded_on_error
    ⟨fun _ => .error "boom", fun _ => .error "x", fun _ _ => .error "y"⟩
    "w2.pdf" "boom" (by rfl)).1

/-- Counterexample to C8 as stated: processing a path with the unsupported
extension `.docx` does not fail loudly; the `ValueError` is swallowed by the
catch-all of `process_w2` and converted into the degraded result. -/
theorem input_error_counterexample :
    processW2 (mkEnv ⟨fun _ => true, fun _ => .error "io"⟩
      (fun _ => .error "p") (fun _ => .error "i")
      (fun _ => .error "g") (fun _ _ => .error "h")) "w2.docx" =
      degradedResult "Unsupported file format: .docx" ∧
    objGet (degradedResult "Unsupported file format: .docx") "fields" =
      some (.vobj []) ∧
    objGet (processW2 (mkEnv ⟨fun _ => false, fun _ => .error "io"⟩
      (fun _ => .error "p") (fun _ => .error "i")
      (fun _ => .error "g") (fun _ _ => .error "h")) "w2.pdf") "fields" =
      some (.vobj []) := by
  refine ⟨by rfl, by rfl, by rfl⟩

/-- C8 as amended: the CLI aside, `process_w2` itself never propagates input
errors: a nonexistent path and an unrecognized extension are raised inside
`_extract_text_from_file`, caught by the catch-all, and converted into the
degraded result carrying the corresponding error message. -/
theorem input_errors_degraded_spec :
    ∀ fs pdf img ge gi p,
      (fs.pathExists p = false →
        processW2 (mkEnv fs pdf img ge gi) p =
          degradedResult ("File not found: " ++ p)) ∧
      (fs.pathExists p = true →
        pyLower (pathSuffix p) ≠ ".pdf" → pyLower (pathSuffix p) ≠ ".jpg" →
        pyLower (pathSuffix p) ≠ ".jpeg" → pyLower (pathSuffix p) ≠ ".png" →
        pyLower (pathSuffix p) ≠ ".tiff" → pyLower (pathSuffix p) ≠ ".bmp" →
        pyLower (pathSuffix p) ≠ ".txt" →
        processW2 (mkEnv fs pdf img ge gi) p =
          degradedResult ("Unsupported file format: " ++ pyLower (pathSuffix p))) := by
  intro fs pdf img ge gi p
  constructor
  · intro hex
    have hstep : extractTextFromFile fs pdf img p = .error ("File not found: " ++ p) := by
      unfold extractTextFromFile
      rw [hex]
      rfl
    apply processW2_of_error
    unfold pipelineRun
    rw [show (mkEnv fs pdf img ge gi).extractText p =
      extractTextFromFile fs pdf img p from rfl, hstep]
  · intro hex h1 h2 h3 h4 h5 h6 h7
    have hstep : extractTextFromFile fs pdf img p =
        .error ("Unsupported file format: " ++ pyLower (pathSuffix p)) := by
      have hn1 : ¬ (pyLower (pathSuffix p) ∈ ([".pdf"] : List String)) := by
        intro hm
        simp only [List.mem_cons] at hm
        rcases hm with h | h
        · exact h1 h
        · cases h
      have hn2 : ¬ (pyLower (pathSuffix p) ∈
          ([".jpg", ".jpeg", ".png", ".tiff", ".bmp"] : List String)) := by
        intro hm
        simp only [List.mem_cons] at hm
        rcases hm with h | h | h | h | h | h
        · exact h2 h
        · exact h3 h
        · exact h4 h
        · exact h5 h
        · exact h6 h
        · cases h
      have hn3 : ¬ (pyLower (pathSuffix p) ∈ ([".txt"] : List String)) := by
        intro hm
        simp only [List.mem_cons] at hm
        rcases hm with h | h
        · exact h7 h
        · cases h
      unfold extractTextFromFile
      rw [hex]
      dsimp only
      rw [if_neg hn1, if_neg hn2, if_neg hn3]
      simp
    apply processW2_of_error
    unfold pipelineRun
    rw [show (mkEnv fs pdf img ge gi).extractText p =
      extractTextFromFile fs pdf img p from rfl, hstep]

/-- Witness for C8 (amended) at a missing path and at an unsupported
extension. -/
theorem input_errors_degraded_spec_witness :
    processW2 (mkEnv ⟨fun _ => false, fun _ => .error "io"⟩
      (fun _ => .error "p") (fun _ => .error "i")
      (fun _ => .error "g") (fun _ _ => .error "h")) "w2.pdf" =
      degradedResult ("File not found: " ++ "w2.pdf") ∧
    processW2 (mkEnv ⟨fun _ => true, fun _ => .error "io"⟩
      (fun _ => .error "p") (fun _ => .error "i")
      (fun _ => .error "g") (fun _ _ => .error "h")) "w2.docx" =
      degradedResult ("Unsupported file format: " ++ pyLower (pathSuffix "w2.docx")) := by
  constructor
  · exact (input_errors_degraded_spec ⟨fun _ => false, fun _ => .error "io"⟩
      (fun _ => .error "p") (fun _ => .error "i")
      (fun _ => .error "g") (fun _ _ => .error "h") "w2.pdf").1 (by rfl)
  · exact (input_errors_degraded_spec ⟨fun _ => true, fun _ => .error "io"⟩
      (fun _ => .error "p") (fun _ => .error "i")
      (fun _ => .error "g") (fun _ _ => .error "h") "w2.docx").2 (by rfl)
      (by decide) (by decide) (by decide) (by decide) (by decide) (by decide) (by decide)

/-- Counterexample to C9 as stated: the degraded failure path's quality
report carries `ocr_quality` instead of `text_quality` and omits
`text_length` and `critical_fields_missing` entirely. -/
theorem quality_shape_counterexample :
    processW2 ⟨fun _ => .error "boom", fun _ => .error "x", fun _ _ => .error "y"⟩
      "w2.txt" = degradedResult "boom" ∧
    objGet (degradedResult "boom") "quality" = some (.vobj [
      ("confidence", .vstr "low"),
      ("warnings", .vlist [.vstr "Processing failed: boom"]),
      ("ocr_quality", .vstr "unknown"),
      ("extraction_method", .vstr "failed")]) ∧
    getKey [(("confidence" : String), Value.vstr "low"),
      ("warnings", Value.vlist [.vstr "Processing failed: boom"]),
      ("ocr_quality", Value.vstr "unknown"),
      ("extraction_method", Value.vstr "failed")] "text_quality" = none ∧
    getKey [(("confidence" : String), Value.vstr "low"),
      ("warnings", Value.vlist [.vstr "Processing failed: boom"]),
      ("ocr_quality", Value.vstr "unknown"),
      ("extraction_method", Value.vstr "failed")] "text_length" = none ∧
    getKey [(("confidence" : String), Value.vstr "low"),
      ("warnings", Value.vlist [.vstr "Processing failed: boom"]),
      ("ocr_quality", Value.vstr "unknown"),
      ("extraction_method", Value.vstr "failed")] "critical_fields_missing" = none := by
  refine ⟨by rfl, by rfl, by rfl, by rfl, by rfl⟩

/-- C9 as amended: on the success path the quality report carries all six
fields with their stated types; on the degraded path it instead carries only
`confidence = low`, a one-element warnings list, `ocr_quality = unknown` and
`extraction_method = failed`, with `text_quality`, `text_length` and
`critical_fields_missing` absent. -/
theorem process_w2_quality_shape :
    ∀ env p, ∃ qkvs, objGet (processW2 env p) "quality" = some (.vobj qkvs) ∧
      ((∃ missing inconsistent text method,
        qkvs = assembleReport missing inconsistent text method ∧
        env.extractText p = .ok (text, method) ∧
        (getKey qkvs "confidence" = some (.vstr "high") ∨
         getKey qkvs "confidence" = some (.vstr "medium") ∨
         getKey qkvs "confidence" = some (.vstr "low")) ∧
        (∃ ws, getKey qkvs "warnings" = some (.vlist ws) ∧
          ∀ w ∈ ws, ∃ s, w = Value.vstr s) ∧
        (getKey qkvs "text_quality" = some (.vstr "good") ∨
         getKey qkvs "text_quality" = some (.vstr "fair") ∨
         getKey qkvs "text_quality" = some (.vstr "poor")) ∧
        getKey qkvs "extraction_method" = some (.vstr method) ∧
        getKey qkvs "text_length" = some (.vnum ((pyStrip text).length : Nat)) ∧
        getKey qkvs "critical_fields_missing" = some (.vnum (missing.length : Nat))) ∨
      (∃ e, processW2 env p = degradedResult e ∧
        qkvs = [("confidence", .vstr "low"),
          ("warnings", .vlist [.vstr ("Processing failed: " ++ e)]),
          ("ocr_quality", .vstr "unknown"),
          ("extraction_method", .vstr "failed")] ∧
        getKey qkvs "text_quality" = none ∧
        getKey qkvs "text_length" = none ∧
        getKey qkvs "critical_fields_missing" = none)) := by
  intro env p
  unfold processW2
  cases hrun : pipelineRun env p with
  | error e =>
    refine ⟨[("confidence", .vstr "low"),
      ("warnings", .vlist [.vstr ("Processing failed: " ++ e)]),
      ("ocr_quality", .vstr "unknown"),
      ("extraction_method", .vstr "failed")], by rfl, Or.inr ⟨e, rfl, rfl, rfl, rfl, rfl⟩⟩
  | ok v =>
    obtain ⟨text, method, extracted, nd, addr, ins, insList, missing, inconsistent,
      h1, h2, h3, h4, h5, hm, hi, h7, hv⟩ := pipelineRun_ok hrun
    subst hv
    refine ⟨assembleReport missing inconsistent text method, by rfl,
      Or.inl ⟨missing, inconsistent, text, method, rfl, h1, ?_, ?_, ?_,
        assembleReport_method _ _ _ _, assembleReport_text_length _ _ _ _,
        assembleReport_missing_count _ _ _ _⟩⟩
    · rw [assembleReport_confidence]
      split_ifs <;> simp
    · rw [assembleReport_warnings]
      exact ⟨_, rfl, fun w hw => by
        obtain ⟨s, _, hs⟩ := List.mem_map.mp hw
        exact ⟨s, hs.symm⟩⟩
    · rw [assembleReport_text_quality]
      split_ifs <;> simp

/-- Counterexample to C10 as stated: the empty (falsy) blob short-circuits
through `if not data: return {}` and yields an empty mapping with none of the
five sections. -/
theorem normalize_data_empty_counterexample :
    normalizeData (.vobj []) = .ok [] ∧
    getKey ([] : List (String × Value)) "employee" = none ∧
    getKey ([] : List (String × Value)) "employer" = none ∧
    getKey ([] : List (String × Value)) "federal" = none ∧
    getKey ([] : List (String × Value)) "state_local" = none ∧
    getKey ([] : List (String × Value)) "other_boxes" = none := by
  exact ⟨by rfl, rfl, rfl, rfl, rfl, rfl⟩

/-- C10 as amended: for every non-empty mapping blob on which normalization
returns (rather than raising), the result's keys are exactly the five
top-level sections in order, sections missing from the blob are defaulted to
an empty mapping (empty list for `state_local`), and `other_boxes` is passed
through unmodified. -/
theorem normalize_data_spec :
    ∀ kvs out, kvs ≠ [] → normalizeData (.vobj kvs) = .ok out →
      out.map Prod.fst = ["employee", "employer", "federal", "state_local", "other_boxes"] ∧
      getKey out "other_boxes" = some ((getKey kvs "other_boxes").getD (.vobj [])) ∧
      (getKey kvs "employee" = none → getKey out "employee" = some (.vobj [])) ∧
      (getKey kvs "employer" = none → getKey out "employer" = some (.vobj [])) ∧
      (getKey kvs "federal" = none → getKey out "federal" = some (.vobj [])) ∧
      (getKey kvs "state_local" = none → getKey out "state_local" = some (.vlist [])) := by
  intro kvs out hne h
  obtain ⟨n1, n2, hm, hn, hc⟩ := normalizeData_ok_shape hne h
  refine ⟨?_, ?_, ?_, ?_, ?_, ?_⟩
  · rw [convertNumericFields_map_fst hc, normalizeStateCodes_map_fst hn,
      maskSensitiveData_map_fst hm]
    rfl
  · rw [convertNumericFields_frame hc (by decide) (by decide),
      normalizeStateCodes_frame hn (by decide) (by decide) (by decide),
      maskSensitiveData_frame hm (by decide) (by decide)]
    rfl
  · intro hz
    have hN : getKey [
        (("employee" : String), (getKey kvs "employee").getD (.vobj [])),
        ("employer", (getKey kvs "employer").getD (.vobj [])),
        ("federal", (getKey kvs "federal").getD (.vobj [])),
        ("state_local", (getKey kvs "state_local").getD (.vlist [])),
        ("other_boxes", (getKey kvs "other_boxes").getD (.vobj []))] "employee" =
        some (.vobj []) := by
      rw [show getKey [
        (("employee" : String), (getKey kvs "employee").getD (.vobj [])),
        ("employer", (getKey kvs "employer").getD (.vobj [])),
        ("federal", (getKey kvs "federal").getD (.vobj [])),
        ("state_local", (getKey kvs "state_local").getD (.vlist [])),
        ("other_boxes", (getKey kvs "other_boxes").getD (.vobj []))] "employee" =
          some ((getKey kvs "employee").getD (.vobj [])) from rfl, hz]; rfl
    unfold maskSensitiveData at hm
    rw [maskField_empty_obj "ssn" hN] at hm
    dsimp at hm
    have hn1 : getKey n1 "employee" = some (.vobj []) := by
      rw [maskField_frame hm (by decide), hN]
    unfold normalizeStateCodes at hn
    rw [normalizeAddrState_empty_obj hn1] at hn
    dsimp at hn
    cases h2 : normalizeAddrState n1 "employer" with
    | error e2 => rw [h2] at hn; simp at hn
    | ok k2 =>
      rw [h2] at hn
      dsimp at hn
      have hn2 : getKey n2 "employee" = some (.vobj []) := by
        rw [normalizeStateLocal_frame hn (by decide),
          normalizeAddrState_frame h2 (by decide), hn1]
      rw [convertNumericFields_frame hc (by decide) (by decide), hn2]
  · intro hz
    cases hm1 : maskField [
        (("employee" : String), (getKey kvs "employee").getD (.vobj [])),
        ("employer", (getKey kvs "employer").getD (.vobj [])),
        ("federal", (getKey kvs "federal").getD (.vobj [])),
        ("state_local", (getKey kvs "state_local").getD (.vlist [])),
        ("other_boxes", (getKey kvs "other_boxes").getD (.vobj []))] "employee" "ssn" with
    | error e1 =>
      unfold maskSensitiveData at hm
      rw [hm1] at hm
      simp at hm
    | ok k1 =>
      unfold maskSensitiveData at hm
      rw [hm1] at hm
      dsimp at hm
      have hk1 : getKey k1 "employer" = some (.vobj []) := by
        rw [maskField_frame hm1 (by decide)]
        rw [show getKey [
          (("employee" : String), (getKey kvs "employee").getD (.vobj [])),
          ("employer", (getKey kvs "employer").getD (.vobj [])),
          ("federal", (getKey kvs "federal").getD (.vobj [])),
          ("state_local", (getKey kvs "state_local").getD (.vlist [])),
          ("other_boxes", (getKey kvs "other_boxes").getD (.vobj []))] "employer" =
            some ((getKey kvs "employer").getD (.vobj [])) from rfl, hz]; rfl
      rw [maskField_empty_obj "ein" hk1] at hm
      have hn1 : getKey n1 "employer" = some (.vobj []) := by
        rw [← Except.ok.inj hm, hk1]
      unfold normalizeStateCodes at hn
      cases h1 : normalizeAddrState n1 "employee" with
      | error e1 => rw [h1] at hn; simp at hn
      | ok o1 =>
        rw [h1] at hn
        dsimp at hn
        have ho1 : getKey o1 "employer" = some (.vobj []) := by
          rw [normalizeAddrState_frame h1 (by decide), hn1]
        rw [normalizeAddrState_empty_obj ho1] at hn
        dsimp at hn
        have hn2 : getKey n2 "employer" = some (.vobj []) := by
          rw [normalizeStateLocal_frame hn (by decide), ho1]
        rw [convertNumericFields_frame hc (by decide) (by decide), hn2]
  · intro hz
    have hn2 : getKey n2 "federal" = some (.vobj []) := by
      rw [normalizeStateCodes_frame hn (by decide) (by decide) (by decide),
        maskSensitiveData_frame hm (by decide) (by decide)]
      rw [show getKey [
        (("employee" : String), (getKey kvs "employee").getD (.vobj [])),
        ("employer", (getKey kvs "employer").getD (.vobj [])),
        ("federal", (getKey kvs "federal").getD (.vobj [])),
        ("state_local", (getKey kvs "state_local").getD (.vlist [])),
        ("other_boxes", (getKey kvs "other_boxes").getD (.vobj []))] "federal" =
          some ((getKey kvs "federal").getD (.vobj [])) from rfl, hz]; rfl
    unfold convertNumericFields at hc
    rw [hn2] at hc
    dsimp at hc
    rw [show foldFields (Value.vobj []) monetaryFields = .ok (.vobj []) from rfl] at hc
    dsimp at hc
    rw [convertStateSection_frame hc (by decide), getKey_setKey_self]
  · intro hz
    have hn2 : getKey n2 "state_local" = some (.vlist []) := by
      have hn1 : getKey n1 "state_local" = some (.vlist []) := by
        rw [maskSensitiveData_frame hm (by decide) (by decide)]
        rw [show getKey [
          (("employee" : String), (getKey kvs "employee").getD (.vobj [])),
          ("employer", (getKey kvs "employer").getD (.vobj [])),
          ("federal", (getKey kvs "federal").getD (.vobj [])),
          ("state_local", (getKey kvs "state_local").getD (.vlist [])),
          ("other_boxes", (getKey kvs "other_boxes").getD (.vobj []))] "state_local" =
            some ((getKey kvs "state_local").getD (.vlist [])) from rfl, hz]; rfl
      obtain ⟨ys, hsec, hlen, _⟩ := normalizeStateCodes_stateLocal hn hn1
        (fun x hx => absurd hx (List.not_mem_nil x))
      have : ys = [] := List.length_eq_zero.mp hlen
      subst this
      exact hsec
    obtain ⟨ys, hsec, hlen, _⟩ := convertNumericFields_stateLocal hc hn2
      (fun x hx => absurd hx (List.not_mem_nil x))
    have : ys = [] := List.length_eq_zero.mp hlen
    subst this
    exact hsec

/-- Witness for C10 (amended): a blob holding only `other_boxes`. -/
theorem normalize_data_spec_witness :
    normalizeData (.vobj [("other_boxes", .vobj [("box_12", .vstr "D")])]) =
      .ok [("employee", .vobj []), ("employer", .vobj []), ("federal", .vobj []),
        ("state_local", .vlist []), ("other_boxes", .vobj [("box_12", .vstr "D")])] ∧
    [(("employee" : String), Value.vobj []), ("employer", .vobj []), ("federal", .vobj []),
      ("state_local", .vlist []), ("other_boxes", .vobj [("box_12", .vstr "D")])].map
      Prod.fst = ["employee", "employer", "federal", "state_local", "other_boxes"] ∧
    getKey [(("employee" : String), Value.vobj []), ("employer", .vobj []),
      ("federal", .vobj []), ("state_local", .vlist []),
      ("other_boxes", .vobj [("box_12", .vstr "D")])] "employee" = some (.vobj []) := by
  have h := normalize_data_spec [("other_boxes", .vobj [("box_12", .vstr "D")])]
    [("employee", .vobj []), ("employer", .vobj []), ("federal", .vobj []),
      ("state_local", .vlist []), ("other_boxes", .vobj [("box_12", .vstr "D")])]
    (by simp) (by rfl)
  exact ⟨by rfl, h.1, h.2.2.1 (by rfl)⟩

end W2
